import Mathlib

/-! Verification model of the arrg MCP tool-calling subsystem
(src/arrg/mcp/schema.py, tools.py, server.py, client.py and the agentic
loop in src/arrg/agents/base.py), shallowly embedded in Lean 4.

Python dynamic values that flow through the protocol are modelled by the
`JVal` type (JSON values as produced by `json.loads`; numbers are modelled
as integers, floats are not needed by any property studied here).
Python exceptions are modelled by the `PyErr` type and an `Except PyErr`
result channel; a function that cannot raise is simply total.
-/

/-- JSON values (the result of Python `json.loads` / the argument of
`json.dumps`).  Objects are insertion-ordered association lists, matching
Python dict semantics. -/
inductive JVal where
  | null : JVal
  | bool : Bool → JVal
  | num : Int → JVal
  | str : String → JVal
  | arr : List JVal → JVal
  | obj : List (String × JVal) → JVal

/-- Python `dict.get(key)`: first binding of the key (keys are unique in
any dict built by the modelled code). -/
def dget : List (String × α) → String → Option α
  | [], _ => none
  | (k, v) :: rest, key => if k = key then some v else dget rest key

/-- Python `dict.get(key, default)` for JSON objects. -/
def dgetD (fields : List (String × JVal)) (key : String) (dflt : JVal) : JVal :=
  (dget fields key).getD dflt

/-- Python `key in dict`. -/
def dhas (fields : List (String × α)) (key : String) : Bool :=
  (dget fields key).isSome

/-- Python `dict[key] = value`: overwrites in place (the key keeps its
insertion position), otherwise appends. -/
def dinsert (key : String) (v : α) : List (String × α) → List (String × α)
  | [] => [(key, v)]
  | (k, w) :: rest => if k = key then (key, v) :: rest else (k, w) :: dinsert key v rest

/-- Python `dict.pop(key, None)`: removes the binding if present. -/
def dpop (key : String) : List (String × α) → List (String × α)
  | [] => []
  | (k, w) :: rest => if k = key then rest else (k, w) :: dpop key rest

/-- Keys of a dict, in insertion order. -/
def dkeys (fields : List (String × α)) : List String :=
  fields.map Prod.fst

/-- Python truthiness of a JSON value (`bool(v)`). -/
def pyTruthy : JVal → Bool
  | .null => false
  | .bool b => b
  | .num n => n != 0
  | .str s => !s.isEmpty
  | .arr xs => !xs.isEmpty
  | .obj fs => !fs.isEmpty

/-- Python `v == "lit"` for a JSON value against a string literal:
true exactly when `v` is that string. -/
def jvalEqStr (v : JVal) (s : String) : Bool :=
  match v with
  | .str t => t = s
  | _ => false

mutual
/-- Python `repr` of a JSON value (scalars are exact; container layout
follows CPython's `', '` separators; string escaping inside reprs is not
reproduced — no modelled property depends on it). -/
def pyRepr : JVal → String
  | .null => "None"
  | .bool true => "True"
  | .bool false => "False"
  | .num n => toString n
  | .str s => "\x27" ++ s ++ "\x27"
  | .arr xs => "[" ++ String.intercalate ", " (pyReprList xs) ++ "]"
  | .obj fs => "\x7b" ++ String.intercalate ", " (pyReprFields fs) ++ "\x7d"

def pyReprList : List JVal → List String
  | [] => []
  | x :: xs => pyRepr x :: pyReprList xs

def pyReprFields : List (String × JVal) → List String
  | [] => []
  | (k, v) :: fs => ("\x27" ++ k ++ "\x27: " ++ pyRepr v) :: pyReprFields fs
end

/-- Python `str` of a JSON value (as used by f-strings on values decoded
from JSON). -/
def pyStr : JVal → String
  | .str s => s
  | v => pyRepr v

/-- Lower-case hex digit. -/
def hexDigit (n : Nat) : Char :=
  if n < 10 then Char.ofNat (48 + n) else Char.ofNat (87 + n)

/-- One character of Python `json.dumps` string escaping. -/
def jsonEscapeChar (c : Char) : String :=
  if c = '"' then "\\\""
  else if c = '\\' then "\\\\"
  else if c = '\n' then "\\n"
  else if c = '\r' then "\\r"
  else if c = '\t' then "\\t"
  else if c.toNat < 32 then
    "\\u00" ++ String.mk [hexDigit (c.toNat / 16), hexDigit (c.toNat % 16)]
  else String.mk [c]

/-- Python `json.dumps` string escaping. -/
def jsonEscape (s : String) : String :=
  String.join (s.toList.map jsonEscapeChar)

mutual
/-- Python `json.dumps` with its default separators (`', '` and `': '`),
as used by every `to_json` method in src/arrg/mcp/schema.py. -/
def jsonDumps : JVal → String
  | .null => "null"
  | .bool true => "true"
  | .bool false => "false"
  | .num n => toString n
  | .str s => "\"" ++ jsonEscape s ++ "\""
  | .arr xs => "[" ++ String.intercalate ", " (jsonDumpsList xs) ++ "]"
  | .obj fs => "\x7b" ++ String.intercalate ", " (jsonDumpsFields fs) ++ "\x7d"

def jsonDumpsList : List JVal → List String
  | [] => []
  | x :: xs => jsonDumps x :: jsonDumpsList xs

def jsonDumpsFields : List (String × JVal) → List String
  | [] => []
  | (k, v) :: fs => ("\"" ++ jsonEscape k ++ "\": " ++ jsonDumps v) :: jsonDumpsFields fs
end

/-- Python exceptions relevant to the modelled code paths.  The payload is
the exception's `str()` message. -/
inductive PyErr where
  | runtimeError : String → PyErr
  | typeError : String → PyErr
  | attributeError : String → PyErr
  | keyError : String → PyErr

/-- The message text, `str(e)`, of a modelled exception. -/
def PyErr.msg : PyErr → String
  | .runtimeError m => m
  | .typeError m => m
  | .attributeError m => m
  | .keyError m => m

/-- Substring test (used to model Python `"error" in data` when `data` is
a string). -/
def strContains (haystack needle : String) : Bool :=
  (haystack.splitOn needle).length ≥ 2

/-! Section: Protocol schema (src/arrg/mcp/schema.py) -/

/-- Wire protocol version constants. -/
def JSONRPC_VERSION : String := "2.0"

def MCP_PROTOCOL_VERSION : String := "2025-11-25"

/-- Standard JSON-RPC error codes. -/
def PARSE_ERROR : Int := -32700

def INVALID_REQUEST : Int := -32600

def METHOD_NOT_FOUND : Int := -32601

def INVALID_PARAMS : Int := -32602

def INTERNAL_ERROR : Int := -32603

/-- Model of `TextContent` dataclass.  `annotations` is `Optional[Dict]` in the
source, carried as an arbitrary JSON value here. -/
structure TextContent where
  text : String
  annotations : Option JVal := none

/-- Model of `ImageContent` dataclass. -/
structure ImageContent where
  data : String
  mime_type : String
  annotations : Option JVal := none

/-- Model of `EmbeddedResource` dataclass. -/
structure EmbeddedResource where
  uri : String
  text : Option String := none
  blob : Option String := none
  mime_type : Option String := none

/-- The `Content = Union[TextContent, ImageContent, EmbeddedResource]`
union. -/
inductive Content where
  | text : TextContent → Content
  | image : ImageContent → Content
  | resource : EmbeddedResource → Content

/-- Model of `TextContent.to_dict`: the `annotations` key is emitted only when the
field is truthy (`if self.annotations:`). -/
def TextContent.to_dict (c : TextContent) : JVal :=
  .obj ([("type", .str "text"), ("text", .str c.text)] ++
    (match c.annotations with
     | some a => if pyTruthy a then [("annotations", a)] else []
     | none => []))

/-- Model of `ImageContent.to_dict`. -/
def ImageContent.to_dict (c : ImageContent) : JVal :=
  .obj ([("type", .str "image"), ("data", .str c.data), ("mimeType", .str c.mime_type)] ++
    (match c.annotations with
     | some a => if pyTruthy a then [("annotations", a)] else []
     | none => []))

/-- Model of `EmbeddedResource.to_dict`. -/
def EmbeddedResource.to_dict (c : EmbeddedResource) : JVal :=
  .obj [("type", .str "resource"),
        ("resource", .obj ([("uri", .str c.uri)] ++
          (match c.text with | some t => [("text", .str t)] | none => []) ++
          (match c.blob with | some b => [("blob", .str b)] | none => []) ++
          (match c.mime_type with | some m => [("mimeType", .str m)] | none => [])))]

/-- Serialization of the content union (`to_dict` on each variant). -/
def Content.to_dict : Content → JVal
  | .text c => c.to_dict
  | .image c => c.to_dict
  | .resource c => c.to_dict

/-- Model of `MCPTool` dataclass. -/
structure MCPTool where
  name : String
  description : String := ""
  input_schema : JVal := .obj [("type", .str "object"), ("properties", .obj [])]
  annotations : Option JVal := none

/-- Model of `MCPTool.to_dict`: `description` and `annotations` are emitted only
when truthy. -/
def MCPTool.to_dict (t : MCPTool) : JVal :=
  .obj ([("name", .str t.name), ("inputSchema", t.input_schema)] ++
    (if t.description.isEmpty then [] else [("description", .str t.description)]) ++
    (match t.annotations with
     | some a => if pyTruthy a then [("annotations", a)] else []
     | none => []))

/-- Model of `MCPTool.to_llm_format`: OpenAI function-calling projection. -/
def MCPTool.to_llm_format (t : MCPTool) : JVal :=
  .obj [("type", .str "function"),
        ("function", .obj [("name", .str t.name),
                           ("description", .str t.description),
                           ("parameters", t.input_schema)])]

/-- Model of `MCPToolCall` dataclass.  `name` and `call_id` are dynamically typed
in Python (the wire can deliver non-strings), so they are carried as
`JVal`; `call_id` defaults to `None`. -/
structure MCPToolCall where
  name : JVal
  arguments : JVal := .obj []
  call_id : JVal := .null

/-- Model of `MCPToolResult` dataclass.  `is_error` is declared `bool` in the
source and modelled as `Bool`. -/
structure MCPToolResult where
  content : List Content
  is_error : Bool := false
  tool_name : JVal := .str ""
  call_id : JVal := .null

/-- Model of `MCPToolResult.to_dict`: the `isError` key is present exactly when
`is_error` is true. -/
def MCPToolResult.to_dict (r : MCPToolResult) : JVal :=
  .obj ([("content", .arr (r.content.map Content.to_dict))] ++
    (if r.is_error then [("isError", .bool true)] else []))

/-- Model of `MCPToolResult.get_text`: joins the texts of `TextContent` blocks and
of `EmbeddedResource` blocks with truthy `text`. -/
def MCPToolResult.get_text (r : MCPToolResult) : String :=
  String.intercalate "\n" (r.content.filterMap (fun c =>
    match c with
    | .text t => some t.text
    | .resource er =>
        match er.text with
        | some s => if s.isEmpty then none else some s
        | none => none
    | .image _ => none))

/-- Model of `MCPToolResult.to_llm_tool_result`: bridges a tool result back into
the LLM conversation format (`call_id or "unknown"` uses Python
truthiness). -/
def MCPToolResult.to_llm_tool_result (r : MCPToolResult) : JVal :=
  .obj [("role", .str "tool"),
        ("tool_call_id", if pyTruthy r.call_id then r.call_id else .str "unknown"),
        ("content", .str (if r.is_error then "Error: " ++ r.get_text else r.get_text))]

/-- Model of `JSONRPCResponse` dataclass (success response). -/
structure JSONRPCResponse where
  result : JVal
  id : JVal := .null

/-- Model of `JSONRPCResponse.to_dict`. -/
def JSONRPCResponse.to_dict (r : JSONRPCResponse) : JVal :=
  .obj [("jsonrpc", .str JSONRPC_VERSION), ("result", r.result), ("id", r.id)]

/-- Model of `JSONRPCResponse.to_json`. -/
def JSONRPCResponse.to_json (r : JSONRPCResponse) : String :=
  jsonDumps r.to_dict

/-- Model of `JSONRPCError` dataclass (error response). -/
structure JSONRPCError where
  code : Int
  message : String
  data : Option JVal := none
  id : JVal := .null

/-- Model of `JSONRPCError.to_dict`: the `data` key is emitted only when not
`None`. -/
def JSONRPCError.to_dict (e : JSONRPCError) : JVal :=
  .obj [("jsonrpc", .str JSONRPC_VERSION),
        ("error", .obj ([("code", .num e.code), ("message", .str e.message)] ++
          (match e.data with | some d => [("data", d)] | none => []))),
        ("id", e.id)]

/-- Model of `JSONRPCError.to_json`. -/
def JSONRPCError.to_json (e : JSONRPCError) : String :=
  jsonDumps e.to_dict

/-! Section: Tool registry (src/arrg/mcp/tools.py) -/

/-- A tool executor: receives the call's arguments as keyword arguments
(a dict) and either returns a string or raises.  This models the
`Callable[..., str]` executors registered with the registry. -/
def Executor : Type := List (String × JVal) → Except PyErr String

/-- Model of `MCPToolRegistry` state: the `_tools` and `_executors` dicts.
Built-in tool registration (`_register_builtin_tools`) only pre-populates
these dicts through `register_tool`, so the state is modelled generally. -/
structure MCPToolRegistry where
  _tools : List (String × MCPTool)
  _executors : List (String × Executor)

/-- A registry with no tools. -/
def MCPToolRegistry.empty : MCPToolRegistry :=
  { _tools := [], _executors := [] }

/-- Model of `MCPToolRegistry.register_tool`: inserts or overwrites both dict
entries under `tool.name`; always succeeds. -/
def MCPToolRegistry.register_tool (reg : MCPToolRegistry) (tool : MCPTool)
    (executor : Executor) : MCPToolRegistry :=
  { _tools := dinsert tool.name tool reg._tools,
    _executors := dinsert tool.name executor reg._executors }

/-- Model of `MCPToolRegistry.unregister_tool`: removes both entries and reports
whether the tool existed. -/
def MCPToolRegistry.unregister_tool (reg : MCPToolRegistry) (name : String) :
    Bool × MCPToolRegistry :=
  (dhas reg._tools name,
   { _tools := dpop name reg._tools, _executors := dpop name reg._executors })

/-- Model of `MCPToolRegistry.list_tools`: MCP `tools/list` response format; the
pagination cursor is accepted but ignored. -/
def MCPToolRegistry.list_tools (reg : MCPToolRegistry) (_cursor : Option JVal := none) : JVal :=
  .obj [("tools", .arr (reg._tools.map (fun p => p.2.to_dict)))]

/-- Model of `MCPToolRegistry.get_tool`. -/
def MCPToolRegistry.get_tool (reg : MCPToolRegistry) (name : String) : Option MCPTool :=
  dget reg._tools name

/-- Model of `MCPToolRegistry.get_tools_for_llm`: OpenAI-format projection of the
catalog. -/
def MCPToolRegistry.get_tools_for_llm (reg : MCPToolRegistry) : List JVal :=
  reg._tools.map (fun p => p.2.to_llm_format)

/-- Model of `call.name not in self._executors` and / `self._executors[call.name]`:
dict lookup with a dynamically typed key.  Only string keys can match
(the dicts are keyed by `tool.name : str`).  An unhashable key (list or
dict) would raise `TypeError` in Python; no modelled property exercises
that corner, and such a key is treated as not-found here. -/
def MCPToolRegistry.execLookup (reg : MCPToolRegistry) (name : JVal) : Option Executor :=
  match name with
  | .str s => dget reg._executors s
  | _ => none

/-- Python `executor(**call.arguments)`: unpacking a non-mapping raises
`TypeError` before the executor body runs. -/
def applyExecutor (ex : Executor) (args : JVal) : Except PyErr String :=
  match args with
  | .obj fields => ex fields
  | _ => .error (.typeError "argument after ** must be a mapping")

/-- Model of `MCPToolRegistry.call_tool` (src/arrg/mcp/tools.py lines 105-148):
unknown name → `is_error=true` diagnostic; `TypeError` → "Invalid
arguments"; any other exception → "Execution error" with the exception's
message; success → the executor's string wrapped in one text block.
Total: the registry never propagates an exception. -/
def MCPToolRegistry.call_tool (reg : MCPToolRegistry) (call : MCPToolCall) : MCPToolResult :=
  match reg.execLookup call.name with
  | none =>
      { content := [.text ⟨"Tool \x27" ++ pyStr call.name ++ "\x27 not found", none⟩],
        is_error := true, tool_name := call.name, call_id := call.call_id }
  | some executor =>
      match applyExecutor executor call.arguments with
      | .ok text_result =>
          { content := [.text ⟨text_result, none⟩],
            is_error := false, tool_name := call.name, call_id := call.call_id }
      | .error (.typeError m) =>
          { content := [.text ⟨"Invalid arguments: " ++ m, none⟩],
            is_error := true, tool_name := call.name, call_id := call.call_id }
      | .error e =>
          { content := [.text ⟨"Execution error: " ++ e.msg, none⟩],
            is_error := true, tool_name := call.name, call_id := call.call_id }

/-! Section: Server (src/arrg/mcp/server.py) -/

/-- Model of `MCPServerCapabilities` dataclass. -/
structure MCPServerCapabilities where
  tools : Option JVal := none
  resources : Option JVal := none
  prompts : Option JVal := none
  logging : Option JVal := none
  experimental : Option JVal := none

/-- Model of `MCPServerCapabilities.to_dict`: only non-`None` fields appear. -/
def MCPServerCapabilities.to_dict (c : MCPServerCapabilities) : JVal :=
  .obj ((match c.tools with | some v => [("tools", v)] | none => []) ++
        (match c.resources with | some v => [("resources", v)] | none => []) ++
        (match c.prompts with | some v => [("prompts", v)] | none => []) ++
        (match c.logging with | some v => [("logging", v)] | none => []) ++
        (match c.experimental with | some v => [("experimental", v)] | none => []))

/-- Model of `MCPInitializeResult` dataclass. -/
structure MCPInitializeResult where
  protocol_version : String := MCP_PROTOCOL_VERSION
  capabilities : MCPServerCapabilities := {}
  server_info : JVal := .obj [("name", .str "arrg-mcp-server"), ("version", .str "0.1.0")]
  instructions : Option String := none

/-- Model of `MCPInitializeResult.to_dict`: `instructions` appears only when
truthy. -/
def MCPInitializeResult.to_dict (r : MCPInitializeResult) : JVal :=
  .obj ([("protocolVersion", .str r.protocol_version),
         ("capabilities", r.capabilities.to_dict),
         ("serverInfo", r.server_info)] ++
    (match r.instructions with
     | some i => if i.isEmpty then [] else [("instructions", .str i)]
     | none => []))

/-- Model of `MCPServer` per-connection state: the owned registry, the
`_initialized` flag and the recorded `_client_info`. -/
structure MCPServer where
  registry : MCPToolRegistry
  initFlag : Bool := false
  client_info : JVal := .null

/-- Model of `MCPServer._handle_initialize` (the name is shortened here): records
`clientInfo` and answers with the initialize result.  `params.get` on a
non-dict raises `AttributeError`, which the request dispatcher converts
to INTERNAL_ERROR. -/
def MCPServer.handle_init (srv : MCPServer) (params : JVal) (msg_id : JVal) :
    MCPServer × Except PyErr String :=
  match params with
  | .obj fields =>
      let srv' := { srv with client_info := dgetD fields "clientInfo" (.obj []) }
      let result : MCPInitializeResult :=
        { capabilities := { tools := some (.obj [("listChanged", .bool true)]) } }
      (srv', .ok (JSONRPCResponse.to_json { result := result.to_dict, id := msg_id }))
  | _ => (srv, .error (.attributeError "object has no attribute \x27get\x27"))

/-- Model of `MCPServer._handle_tools_list`: answers with the registry's live
catalog (the cursor is read but ignored). -/
def MCPServer.handle_tools_list (srv : MCPServer) (params : JVal) (msg_id : JVal) :
    Except PyErr String :=
  match params with
  | .obj _ =>
      .ok (JSONRPCResponse.to_json { result := srv.registry.list_tools, id := msg_id })
  | _ => .error (.attributeError "object has no attribute \x27get\x27")

/-- Model of `MCPServer._handle_tools_call` (src/arrg/mcp/server.py lines 216-238):
a falsy `name` (`if not name:`, i.e. missing, `None`, `""`, `0`, `false`,
`[]` or `{}`) yields INVALID_PARAMS; otherwise the registry executes the
call and its result — error or not — is wrapped in a *successful*
JSON-RPC response. -/
def MCPServer.handle_tools_call (srv : MCPServer) (params : JVal) (msg_id : JVal) :
    Except PyErr String :=
  match params with
  | .obj fields =>
      let name := dgetD fields "name" .null
      if !pyTruthy name then
        .ok (JSONRPCError.to_json
          { code := INVALID_PARAMS, message := "Missing required parameter: name",
            id := msg_id })
      else
        let arguments := dgetD fields "arguments" (.obj [])
        let call : MCPToolCall := { name := name, arguments := arguments }
        let tool_result := srv.registry.call_tool call
        .ok (JSONRPCResponse.to_json { result := tool_result.to_dict, id := msg_id })
  | _ => .error (.attributeError "object has no attribute \x27get\x27")

/-- Model of `MCPServer._handle_request`: dispatch to the matching handler; any
exception is caught and converted to an INTERNAL_ERROR response, so a
request is always answered. -/
def MCPServer.handle_request (srv : MCPServer) (method : JVal) (params : JVal)
    (msg_id : JVal) : MCPServer × String :=
  let wrap : MCPServer × Except PyErr String → MCPServer × String := fun (s, r) =>
    match r with
    | .ok out => (s, out)
    | .error e =>
        (s, JSONRPCError.to_json
          { code := INTERNAL_ERROR, message := "Internal error: " ++ e.msg, id := msg_id })
  if jvalEqStr method "initialize" then
    wrap (srv.handle_init params msg_id)
  else if jvalEqStr method "ping" then
    (srv, JSONRPCResponse.to_json { result := .obj [], id := msg_id })
  else if jvalEqStr method "tools/list" then
    wrap (srv, srv.handle_tools_list params msg_id)
  else if jvalEqStr method "tools/call" then
    wrap (srv, srv.handle_tools_call params msg_id)
  else
    (srv, JSONRPCError.to_json
      { code := METHOD_NOT_FOUND, message := "Method not found: " ++ pyStr method,
        id := msg_id })

/-- Model of `MCPServer._handle_notification`: `notifications/initialized` flips
the flag; `notifications/cancelled` reads `params.get("requestId")` and
`params.get("reason", "unknown")` — on a non-dict `params` that `.get`
raises `AttributeError`, and nothing on the notification path catches it.
Other methods are logged and ignored. -/
def MCPServer.handle_notif (srv : MCPServer) (method : JVal) (params : JVal) :
    MCPServer × Except PyErr Unit :=
  if jvalEqStr method "notifications/initialized" then
    ({ srv with initFlag := true }, .ok ())
  else if jvalEqStr method "notifications/cancelled" then
    match params with
    | .obj _ => (srv, .ok ())
    | _ => (srv, .error (.attributeError "object has no attribute \x27get\x27"))
  else
    (srv, .ok ())

/-- Model of `MCPServer.handle_message` (src/arrg/mcp/server.py lines 95-141),
parameterised by `jloads`, the behaviour of Python `json.loads` on the
raw input (the standard library parser is outside the repository).
Result: `.ok (some s)` — a response line; `.ok none` — no output
(notification); `.error e` — an uncaught Python exception. -/
def MCPServer.handle_message (jloads : String → Except String JVal)
    (srv : MCPServer) (raw : String) : MCPServer × Except PyErr (Option String) :=
  match jloads raw with
  | .error e =>
      (srv, .ok (some (JSONRPCError.to_json
        { code := PARSE_ERROR, message := "Parse error: " ++ e })))
  | .ok data =>
    match data with
    | .obj fields =>
        let jsonrpc := dgetD fields "jsonrpc" .null
        if !jvalEqStr jsonrpc JSONRPC_VERSION then
          (srv, .ok (some (JSONRPCError.to_json
            { code := INVALID_REQUEST,
              message := "Invalid JSON-RPC version: " ++ pyStr jsonrpc,
              id := dgetD fields "id" .null })))
        else
          let method := dgetD fields "method" .null
          let params := dgetD fields "params" (.obj [])
          let msg_id := dgetD fields "id" .null
          match msg_id with
          | .null =>
              let (srv', r) := srv.handle_notif method params
              (srv', r.map (fun _ => none))
          | _ =>
              let (srv', out) := srv.handle_request method params msg_id
              (srv', .ok (some out))
    | _ =>
        (srv, .ok (some (JSONRPCError.to_json
          { code := INVALID_REQUEST, message := "Invalid request: expected JSON object" })))

/-! Section: Client transport (src/arrg/mcp/client.py) -/

/-- One request/response round-trip's transport behaviour, as seen by
`MCPClient._send_request`: the outcome of writing the request line to the
child's stdin and of reading one line from its stdout.  (`_ensure_process`
is assumed to pass: the claims studied here concern failures *during* an
operation on a live process handle.) -/
structure TransportIO where
  writeOutcome : Except String Unit
  readOutcome : Except String String

/-- Model of `MCPClient._send_request` (src/arrg/mcp/client.py lines 241-287):
write failure, empty response line, JSON decode failure and a JSON-RPC
`error` payload each raise `RuntimeError` with the messages below; a
response carrying no `error` yields `data.get("result", {})`.  A non-dict
JSON response reaches `"error" in data` / `data.get`, whose dynamic
failures (uncaught in the source) are reproduced. -/
def MCPClient.send_request (jloads : String → Except String JVal) (io : TransportIO) :
    Except PyErr JVal :=
  match io.writeOutcome with
  | .error e => .error (.runtimeError ("Failed to send to MCP server: " ++ e))
  | .ok _ =>
  match io.readOutcome with
  | .error e => .error (.runtimeError ("Failed to read from MCP server: " ++ e))
  | .ok response_line =>
  if response_line.isEmpty then
    .error (.runtimeError "MCP server closed connection (empty response)")
  else
    match jloads response_line.trim with
    | .error e => .error (.runtimeError ("Invalid JSON from MCP server: " ++ e))
    | .ok data =>
      match data with
      | .obj fields =>
          match dget fields "error" with
          | some err =>
              match err with
              | .obj efields =>
                  .error (.runtimeError
                    ("MCP server error [" ++ pyStr (dgetD efields "code" (.str "?")) ++
                     "]: " ++ pyStr (dgetD efields "message" (.str "unknown error"))))
              | _ => .error (.attributeError "object has no attribute \x27get\x27")
          | none => .ok (dgetD fields "result" (.obj []))
      | .arr xs =>
          if xs.any (fun v => jvalEqStr v "error") then
            .error (.typeError "list indices must be integers or slices, not str")
          else
            .error (.attributeError "\x27list\x27 object has no attribute \x27get\x27")
      | .str s =>
          if strContains s "error" then
            .error (.typeError "string indices must be integers")
          else
            .error (.attributeError "\x27str\x27 object has no attribute \x27get\x27")
      | _ => .error (.typeError "argument of type is not iterable")

/-- Parse one content block as `MCPClient.call_tool` does: dict blocks of
type `"text"` keep their `text` (a non-string `text` value would be
stored raw by Python; it is coerced through `str` here, a corner no
studied property touches); any other dict block falls back to
`json.dumps(block)`; a non-dict block's `.get` raises. -/
def MCPClient.parseBlock (block : JVal) : Except PyErr Content :=
  match block with
  | .obj bfields =>
      if jvalEqStr (dgetD bfields "type" (.str "text")) "text" then
        .ok (.text ⟨(match dgetD bfields "text" (.str "") with
                     | .str s => s
                     | v => pyStr v), none⟩)
      else
        .ok (.text ⟨jsonDumps block, none⟩)
  | _ => .error (.attributeError "object has no attribute \x27get\x27")

/-- Parse every block of `result.get("content", [])`, in order. -/
def MCPClient.parseBlocks : List JVal → Except PyErr (List Content)
  | [] => .ok []
  | b :: rest =>
      match MCPClient.parseBlock b with
      | .error e => .error e
      | .ok c =>
          match MCPClient.parseBlocks rest with
          | .error e => .error e
          | .ok cs => .ok (c :: cs)

/-- Python `for x in v`: lists iterate their elements, dicts their
(string) keys, strings their characters; other scalars raise
`TypeError`.  The loop body then fails on non-dict items. -/
def MCPClient.iterContent (v : JVal) : Except PyErr (List JVal)
  := match v with
  | .arr xs => .ok xs
  | .obj fs => .ok (fs.map (fun p => .str p.1))
  | .str s => .ok (s.toList.map (fun c => .str (String.mk [c])))
  | _ => .error (.typeError "object is not iterable")

/-- Model of `MCPClient.call_tool` (src/arrg/mcp/client.py lines 181-221): a
`RuntimeError` from `_send_request` is caught and converted to an
`is_error=true` result whose text is `"Server error: ..."`; otherwise the
MCP result payload is parsed into content blocks, an empty or absent
content array is replaced by the `"(empty result)"` placeholder, and
`isError` is read with default `False`. -/
def MCPClient.call_tool (jloads : String → Except String JVal) (io : TransportIO)
    (call : MCPToolCall) : Except PyErr MCPToolResult :=
  match MCPClient.send_request jloads io with
  | .error (.runtimeError e) =>
      .ok { content := [.text ⟨"Server error: " ++ e, none⟩],
            is_error := true, tool_name := call.name, call_id := call.call_id }
  | .error e => .error e
  | .ok result =>
      match result with
      | .obj rfields =>
          match MCPClient.iterContent (dgetD rfields "content" (.arr [])) with
          | .error e => .error e
          | .ok blocks =>
              match MCPClient.parseBlocks blocks with
              | .error e => .error e
              | .ok content_blocks =>
                  let content_blocks :=
                    if content_blocks.isEmpty then
                      [Content.text ⟨"(empty result)", none⟩]
                    else content_blocks
                  .ok { content := content_blocks,
                        is_error := pyTruthy (dgetD rfields "isError" (.bool false)),
                        tool_name := call.name, call_id := call.call_id }
      | _ => .error (.attributeError "object has no attribute \x27get\x27")

/-- Parse one `tools/list` entry as `MCPClient.list_tools` does:
`t["name"]` raises `KeyError` when absent (a non-string name would be
stored raw; it is coerced through `str` here); `description` defaults to
`""` and `inputSchema` to the empty object schema. -/
def MCPClient.parseTool (t : JVal) : Except PyErr MCPTool :=
  match t with
  | .obj tfields =>
      match dget tfields "name" with
      | none => .error (.keyError "\x27name\x27")
      | some nameVal =>
          .ok { name := (match nameVal with | .str s => s | v => pyStr v),
                description := (match dgetD tfields "description" (.str "") with
                                | .str s => s
                                | v => pyStr v),
                input_schema := dgetD tfields "inputSchema"
                  (.obj [("type", .str "object"), ("properties", .obj [])]) }
  | _ => .error (.typeError "indices must be integers")

/-- Parse every `tools/list` entry, in order. -/
def MCPClient.parseTools : List JVal → Except PyErr (List MCPTool)
  | [] => .ok []
  | t :: rest =>
      match MCPClient.parseTool t with
      | .error e => .error e
      | .ok tool =>
          match MCPClient.parseTools rest with
          | .error e => .error e
          | .ok tools => .ok (tool :: tools)

/-- Model of `MCPClient.list_tools` (src/arrg/mcp/client.py lines 163-179): no
exception handler of its own — every `_send_request` failure propagates
to the caller. -/
def MCPClient.list_tools (jloads : String → Except String JVal) (io : TransportIO) :
    Except PyErr (List MCPTool) :=
  match MCPClient.send_request jloads io with
  | .error e => .error e
  | .ok result =>
      match result with
      | .obj rfields =>
          match MCPClient.iterContent (dgetD rfields "tools" (.arr [])) with
          | .error e => .error e
          | .ok items => MCPClient.parseTools items
      | _ => .error (.attributeError "object has no attribute \x27get\x27")

/-- Model of `MCPClient.ping` (src/arrg/mcp/client.py lines 229-235): any
exception at all is swallowed and reported as `False`. -/
def MCPClient.ping (jloads : String → Except String JVal) (io : TransportIO) : Bool :=
  match MCPClient.send_request jloads io with
  | .ok _ => true
  | .error _ => false

/-! Section: Client lifecycle (connect / disconnect / context manager) -/

/-- Ghost view of the client's connection state: `hasProcess` mirrors
`self._process is not None`, `childSpawned`/`childAlive` track whether a
child server process was ever started and whether it is still running,
`connFlag` mirrors `self._initialized`. -/
structure ClientSt where
  hasProcess : Bool := false
  childSpawned : Bool := false
  childAlive : Bool := false
  connFlag : Bool := false

/-- Environment of one `connect()` attempt: the `subprocess.Popen`
outcome, the `_send_request("initialize", ...)` outcome, and whether the
`notifications/initialized` write succeeds (a failure there is only
logged). -/
structure ConnectEnv where
  spawnOutcome : Except String Unit
  initOutcome : Except PyErr JVal
  notifyWriteOk : Bool := true

/-- Environment of one `disconnect()` call: whether `stdin.close()`,
`terminate()` and `wait(timeout=5)` complete without raising
(`wait` "raising" covers `TimeoutExpired`). -/
structure DisconnectEnv where
  closeOk : Bool := true
  terminateOk : Bool := true
  waitOk : Bool := true

/-- Actions performed on the child process, in order. -/
inductive ProcAction where
  | closeStdin : ProcAction
  | terminate : ProcAction
  | waited : ProcAction
  | kill : ProcAction

instance : DecidableEq ProcAction := fun a b => by
  cases a <;> cases b <;> first | exact isTrue rfl | exact isFalse (by intro h; cases h)

/-- Model of `MCPClient.connect` (src/arrg/mcp/client.py lines 89-130): spawn the
child, then run the initialize handshake.  There is no `try/finally`
around the handshake: if `_send_request` raises, the exception propagates
while `self._process` still holds the live child and no termination is
attempted. -/
def MCPClient.connect (st : ClientSt) (env : ConnectEnv) :
    ClientSt × Option PyErr × List ProcAction :=
  match env.spawnOutcome with
  | .error e =>
      (st, some (.runtimeError ("Failed to start MCP server: " ++ e)), [])
  | .ok _ =>
      let st1 : ClientSt :=
        { st with hasProcess := true, childSpawned := true, childAlive := true }
      match env.initOutcome with
      | .error e => (st1, some e, [])
      | .ok _ => ({ st1 with connFlag := true }, none, [])

/-- Model of `MCPClient.disconnect` (src/arrg/mcp/client.py lines 132-148):
`try: close stdin; terminate; wait(5)`, `except: kill`, `finally:
self._process = None; self._initialized = False`. -/
def MCPClient.disconnect (st : ClientSt) (env : DisconnectEnv) :
    ClientSt × List ProcAction :=
  if st.hasProcess then
    let (alive, acts) :=
      if !env.closeOk then
        (false, [ProcAction.closeStdin, ProcAction.kill])
      else if !env.terminateOk then
        (false, [ProcAction.closeStdin, ProcAction.terminate, ProcAction.kill])
      else if !env.waitOk then
        (false, [ProcAction.closeStdin, ProcAction.terminate, ProcAction.kill])
      else
        (false, [ProcAction.closeStdin, ProcAction.terminate, ProcAction.waited])
    ({ st with hasProcess := false, connFlag := false, childAlive := alive }, acts)
  else
    (st, [])

/-- Python `with MCPClient(...) as client: body` semantics: `__enter__`
runs `connect()`; if `connect` raises, `__exit__` never runs (the `with`
body was not entered), so `disconnect` is skipped.  Otherwise the body
runs (modelled as possibly raising) and `__exit__` runs `disconnect()`
on both the normal and the exceptional body path. -/
def MCPClient.withClient (cenv : ConnectEnv) (denv : DisconnectEnv)
    (bodyErr : Option PyErr) : ClientSt × Option PyErr × List ProcAction :=
  let (st, connErr, acts) := MCPClient.connect {} cenv
  match connErr with
  | some e => (st, some e, acts)
  | none =>
      let (st', dacts) := MCPClient.disconnect st denv
      (st', bodyErr, acts ++ dacts)

/-! Section: Agentic loop (BaseAgent.call_llm, src/arrg/agents/base.py lines 142-285) -/

/-- Observable events of one `call_llm(use_tools=True)` run, in order:
each completion call (its index and whether the tool schemas were
passed), each append of the assistant tool-request message, and each
`registry.call_tool` dispatch with the appended result message's
correlation id. -/
inductive LoopEvent where
  | llmCall : Nat → Bool → LoopEvent
  | appendAssistant : LoopEvent
  | toolDispatch : MCPToolCall → MCPToolResult → LoopEvent
  | appendToolResult : JVal → LoopEvent

/-- The LLM completion interface (`LLMClient.call_with_messages`),
modelled as an oracle: given the index of the completion call in this
run, the full message history, and the bridged tool schemas (`None` for
the final no-tools call), it returns the response dict
(`{content?, tool_calls?}`).  The index argument generalises a stateful
service; a deterministic service simply ignores it. -/
def LLMOracle : Type := Nat → List JVal → Option JVal → List (String × JVal)

/-- Process one requested tool call `tc` (one iteration of
`for tc in tool_calls:`): read `id` (default `f"call_{round_num}"`),
`function` (default `{}`), `name` (default `"unknown"`), parse the
arguments (a string is `json.loads`-decoded, falling back to `{}`),
dispatch through `registry.call_tool`, and build the appended tool
message.  A non-dict `tc` or `function` raises `AttributeError`. -/
def execOneToolCall (jloads : String → Except String JVal) (reg : MCPToolRegistry)
    (round_num : Nat) (tc : JVal) : Except PyErr (MCPToolCall × MCPToolResult × JVal) :=
  match tc with
  | .obj tfields =>
      let tc_id := dgetD tfields "id" (.str ("call_" ++ toString round_num))
      match dgetD tfields "function" (.obj []) with
      | .obj ffields =>
          let tool_name := dgetD ffields "name" (.str "unknown")
          let raw_args := dgetD ffields "arguments" (.str "\x7b\x7d")
          let tool_args : JVal :=
            match raw_args with
            | .str s => (match jloads s with | .ok v => v | .error _ => .obj [])
            | v => v
          let mcp_call : MCPToolCall :=
            { name := tool_name, arguments := tool_args, call_id := tc_id }
          let mcp_result := reg.call_tool mcp_call
          .ok (mcp_call, mcp_result, mcp_result.to_llm_tool_result)
      | _ => .error (.attributeError "object has no attribute \x27get\x27")
  | _ => .error (.attributeError "object has no attribute \x27get\x27")

/-- Run the round's requested tool calls in the order the LLM listed
them, collecting the appended tool messages and events; an exception
stops the iteration (messages appended so far remain appended). -/
def runToolCalls (jloads : String → Except String JVal) (reg : MCPToolRegistry)
    (round_num : Nat) : List JVal → List JVal × List LoopEvent × Option PyErr
  | [] => ([], [], none)
  | tc :: rest =>
      match execOneToolCall jloads reg round_num tc with
      | .error e => ([], [], some e)
      | .ok (c, r, msg) =>
          let (ms, evs, err) := runToolCalls jloads reg round_num rest
          (msg :: ms, LoopEvent.toolDispatch c r :: LoopEvent.appendToolResult c.call_id :: evs,
           err)

/-- Python `for x in v` for the round's `tool_calls` value (only reached
when the value is truthy). -/
def iterToolCalls (v : JVal) : Except PyErr (List JVal) :=
  match v with
  | .arr xs => .ok xs
  | .obj fs => .ok (fs.map (fun p => .str p.1))
  | .str s => .ok (s.toList.map (fun c => .str (String.mk [c])))
  | _ => .error (.typeError "object is not iterable")

/-- The assistant message recording a round's tool requests
(`assistant_msg` in the source): role, the raw `tool_calls` value, and
the response's `content` only when truthy. -/
def assistantMsg (response : List (String × JVal)) (tcVal : JVal) : JVal :=
  let assistant_content := dgetD response "content" .null
  .obj ([("role", .str "assistant"), ("tool_calls", tcVal)] ++
    (if pyTruthy assistant_content then [("content", assistant_content)] else []))

/-- The agentic loop body (`for round_num in range(max_tool_rounds):` and
the final no-tools call), structurally recursing on the remaining round
budget.  Returns the result of the `try:` body (`.error` = an exception
that the enclosing `except` will turn into `"[Error: ...]"`), the final
message history, and the event trace. -/
def toolLoop (jloads : String → Except String JVal) (llm : LLMOracle)
    (reg : MCPToolRegistry) (tools : JVal) :
    Nat → Nat → List JVal → Except PyErr JVal × List JVal × List LoopEvent
  | 0, round_num, messages =>
      let response := llm round_num messages none
      (.ok (dgetD response "content" (.str "")), messages,
       [LoopEvent.llmCall round_num false])
  | remaining + 1, round_num, messages =>
      let response := llm round_num messages (some tools)
      let tcVal := dgetD response "tool_calls" .null
      if !pyTruthy tcVal then
        (.ok (dgetD response "content" (.str "")), messages,
         [LoopEvent.llmCall round_num true])
      else
        let assistant_msg : JVal := assistantMsg response tcVal
        let messages1 := messages ++ [assistant_msg]
        match iterToolCalls tcVal with
        | .error e =>
            (.error e, messages1, [LoopEvent.llmCall round_num true, LoopEvent.appendAssistant])
        | .ok tcs =>
            let (tms, tevs, err) := runToolCalls jloads reg round_num tcs
            let messages2 := messages1 ++ tms
            match err with
            | some e =>
                (.error e, messages2,
                 LoopEvent.llmCall round_num true :: LoopEvent.appendAssistant :: tevs)
            | none =>
                let (res, mfin, evs) := toolLoop jloads llm reg tools remaining
                  (round_num + 1) messages2
                (res, mfin,
                 (LoopEvent.llmCall round_num true :: LoopEvent.appendAssistant :: tevs) ++ evs)

/-- The initial conversation history of one `call_llm(use_tools=True)`
run: the system message only when `system_prompt` is truthy, then the
user prompt. -/
def initialMessages (system_prompt : Option String) (prompt : String) : List JVal :=
  (match system_prompt with
   | some sp => if sp.isEmpty then [] else [JVal.obj [("role", .str "system"), ("content", .str sp)]]
   | none => []) ++
  [JVal.obj [("role", .str "user"), ("content", .str prompt)]]

/-- Model of `BaseAgent.call_llm` with `use_tools=True`: build the initial message
history, bridge the registry's catalog through `get_tools_for_llm`, run
the loop, and convert an escaped exception to the `"[Error: ...]"` string
as the outer `except` does. -/
def call_llm_with_tools (jloads : String → Except String JVal) (llm : LLMOracle)
    (reg : MCPToolRegistry) (system_prompt : Option String) (prompt : String)
    (max_tool_rounds : Nat) : JVal × List JVal × List LoopEvent :=
  let messages := initialMessages system_prompt prompt
  let tools : JVal := .arr reg.get_tools_for_llm
  match toolLoop jloads llm reg tools max_tool_rounds 0 messages with
  | (.ok v, m, evs) => (v, m, evs)
  | (.error e, m, evs) => (.str ("[Error: " ++ e.msg ++ "]"), m, evs)

/-- The completion-call events of a trace, as (index, tools-enabled)
pairs. -/
def llmCallsOf (evs : List LoopEvent) : List (Nat × Bool) :=
  evs.filterMap (fun ev => match ev with
    | .llmCall i b => some (i, b)
    | _ => none)

/-- The dispatched registry calls of a trace, in order. -/
def dispatchCallsOf (evs : List LoopEvent) : List MCPToolCall :=
  evs.filterMap (fun ev => match ev with
    | .toolDispatch c _ => some c
    | _ => none)

/-- The correlation ids of the appended tool-result messages, in order. -/
def toolMsgIdsOf (evs : List LoopEvent) : List JVal :=
  evs.filterMap (fun ev => match ev with
    | .appendToolResult i => some i
    | _ => none)

/-- Number of assistant tool-request messages appended. -/
def assistantAppends (evs : List LoopEvent) : Nat :=
  evs.countP (fun ev => match ev with
    | .appendAssistant => true
    | _ => false)

/-- A message dict whose `role` is the given string. -/
def msgHasRole (m : JVal) (role : String) : Bool :=
  match m with
  | .obj fields => jvalEqStr (dgetD fields "role" .null) role
  | _ => false

/-! Section: Derived observations and auxiliary predicates -/

/-- A requested tool call that the loop body can process without raising:
a dict whose `function` entry (default `{}`) is a dict. -/
def wfToolCall (tc : JVal) : Bool :=
  match tc with
  | .obj tfields =>
      (match dgetD tfields "function" (.obj []) with
       | .obj _ => true
       | _ => false)
  | _ => false

/-- A scripted tool-call request, used to describe scripted LLM
behaviours: an id, a tool name and a (non-string, already-parsed)
arguments object. -/
structure TcSpec where
  tcid : String
  tname : String
  targs : List (String × JVal)

/-- The OpenAI-format tool-call dict an LLM returns for this request. -/
def TcSpec.toJVal (t : TcSpec) : JVal :=
  .obj [("id", .str t.tcid),
        ("function", .obj [("name", .str t.tname), ("arguments", .obj t.targs)])]

/-- The `MCPToolCall` the loop builds from this request. -/
def TcSpec.toCall (t : TcSpec) : MCPToolCall :=
  { name := .str t.tname, arguments := .obj t.targs, call_id := .str t.tcid }

/-- Number of entries of a dict carrying the given key. -/
def countKey (fs : List (String × α)) (k : String) : Nat :=
  fs.countP (fun p => p.1 == k)

/-- The tool names appearing in a `tools/list` response payload. -/
def namesOfListOutput (v : JVal) : List String :=
  match v with
  | .obj fields =>
      match dget fields "tools" with
      | some (.arr ts) =>
          ts.filterMap (fun t =>
            match t with
            | .obj tfields =>
                (match dget tfields "name" with
                 | some (.str s) => some s
                 | _ => none)
            | _ => none)
      | _ => []
  | _ => []

/-- Registry dict well-formedness: every catalog entry is keyed by its
tool's name and keys are unique.  This holds for every state reachable
from `__init__` through `register_tool`/`unregister_tool` (both dicts are
only ever written under `tool.name`). -/
structure RegistryWF (reg : MCPToolRegistry) : Prop where
  named : ∀ p ∈ reg._tools, p.1 = p.2.name
  nodupTools : (dkeys reg._tools).Nodup
  nodupExecs : (dkeys reg._executors).Nodup

/-- The `isError` entry of a serialized tool result (none if the key is
absent). -/
def isErrorEntry (v : JVal) : Option JVal :=
  match v with
  | .obj fields => dget fields "isError"
  | _ => none

/-! Section: Concrete instances for counterexamples and witnesses -/

/-- The `"echo"` tool of spec §8 Scenario A. -/
def echoTool : MCPTool :=
  { name := "echo", description := "Echo the text argument back" }

/-- Scenario A's executor: returns its `text` argument unchanged. -/
def echoExec : Executor := fun args =>
  match dget args "text" with
  | some (.str s) => .ok s
  | _ => .error (.typeError "echo() missing required argument: \x27text\x27")

/-- An executor that always raises a generic exception. -/
def boomExec : Executor := fun _ => .error (.runtimeError "boom")

/-- A registry holding `echo` and a failing tool `boom`. -/
def echoReg : MCPToolRegistry :=
  (MCPToolRegistry.empty.register_tool echoTool echoExec).register_tool
    { name := "boom" } boomExec

/-- A server owning `echoReg`. -/
def srv0 : MCPServer := { registry := echoReg }

/-- A concrete `json.loads` behaviour for witnesses: recognises one
marker string as a cancelled-notification message whose `params` is a
JSON array, and fails to parse everything else. -/
def jl0 : String → Except String JVal := fun s =>
  if s = "CANCELNOTIF" then
    .ok (.obj [("jsonrpc", .str "2.0"), ("method", .str "notifications/cancelled"),
               ("params", .arr [])])
  else .error "Expecting value: line 1 column 1 (char 0)"

/-- Transport behaviour: the write succeeds and the child closes the
stream (an empty `readline`). -/
def ioEmpty : TransportIO := { writeOutcome := .ok (), readOutcome := .ok "" }

/-- Transport behaviour: the write hits a broken pipe. -/
def ioBrokenPipe : TransportIO :=
  { writeOutcome := .error "[Errno 32] Broken pipe", readOutcome := .ok "" }

/-- Transport behaviour: the child answers with a line that `jl0` fails
to parse (the malformed-JSON path). -/
def ioGarbage : TransportIO := { writeOutcome := .ok (), readOutcome := .ok "garbage" }

/-- A `json.loads` behaviour that parses every line as a JSON-RPC success
response without a `result` field, so `_send_request` yields the default
empty-object result. -/
def jlOkEmpty : String → Except String JVal := fun _ =>
  .ok (.obj [("jsonrpc", .str "2.0"), ("id", .str "1")])

/-- A `json.loads` behaviour and transport pair producing a JSON-RPC
error payload response. -/
def jlRpcError : String → Except String JVal := fun _ =>
  .ok (.obj [("jsonrpc", .str "2.0"),
             ("error", .obj [("code", .num (-32601)), ("message", .str "Method not found")]),
             ("id", .str "1")])

/-- Transport behaviour delivering one non-empty line. -/
def ioLine : TransportIO := { writeOutcome := .ok (), readOutcome := .ok "RPCERR" }

/-- Scripted single-call tool requests for the C6 witness
(Scenario B: tool `"echo"` each round). -/
def tcsW : Nat → List TcSpec := fun i =>
  [⟨"c" ++ toString i, "echo", [("text", .str "hi")]⟩]

/-- Scripted LLM for the C6 witness: requests one `echo` call for rounds
0, 1, 2, then answers `"done"` with no tool request. -/
def llmW : LLMOracle := fun i _ _ =>
  if i < 3 then [("tool_calls", .arr ((tcsW i).map TcSpec.toJVal))]
  else [("content", .str "done")]

/-- Scripted LLM for the C5 witness: always requests one `echo` call,
whatever the round. -/
def llmAlways : LLMOracle := fun _ _ _ =>
  [("tool_calls", .arr ((tcsW 0).map TcSpec.toJVal))]

/-- A `connect` environment whose handshake fails: the spawn succeeds and
the initialize request dies on an empty response. -/
def cenvHandshakeFail : ConnectEnv :=
  { spawnOutcome := .ok (),
    initOutcome := .error (.runtimeError "MCP server closed connection (empty response)") }

/-- A fully successful `connect` environment. -/
def cenvOk : ConnectEnv :=
  { spawnOutcome := .ok (),
    initOutcome := .ok (.obj [("protocolVersion", .str MCP_PROTOCOL_VERSION)]) }

/-! Section: Helper lemmas -/

theorem dkeys_cons (p : String × α) (fs : List (String × α)) :
    dkeys (p :: fs) = p.1 :: dkeys fs := rfl

theorem dget_dinsert_self (k : String) (v : α) (fs : List (String × α)) :
    dget (dinsert k v fs) k = some v := by
  induction fs with
  | nil => simp [dinsert, dget]
  | cons p rest ih =>
      by_cases h : p.1 = k
      · simp [dinsert, h, dget]
      · simp [dinsert, h, dget, ih]

theorem countKey_cons (p : String × α) (fs : List (String × α)) (k : String) :
    countKey (p :: fs) k = countKey fs k + if p.1 = k then 1 else 0 := by
  by_cases h : p.1 = k <;> simp [countKey, List.countP_cons, h]

theorem countKey_eq_zero_of_not_mem (fs : List (String × α)) (k : String)
    (h : k ∉ dkeys fs) : countKey fs k = 0 := by
  induction fs with
  | nil => rfl
  | cons p rest ih =>
      rw [dkeys_cons, List.mem_cons, not_or] at h
      rw [countKey_cons, if_neg (fun hh => h.1 hh.symm), ih h.2]

theorem countKey_le_one_of_nodup (fs : List (String × α)) (k : String)
    (h : (dkeys fs).Nodup) : countKey fs k ≤ 1 := by
  induction fs with
  | nil => simp [countKey]
  | cons p rest ih =>
      rw [dkeys_cons, List.nodup_cons] at h
      rw [countKey_cons]
      by_cases hk : p.1 = k
      · subst hk
        rw [countKey_eq_zero_of_not_mem rest p.1 h.1, if_pos rfl]
      · rw [if_neg hk]
        have := ih h.2
        omega

theorem countKey_dinsert_self (k : String) (v : α) (fs : List (String × α))
    (h : countKey fs k ≤ 1) : countKey (dinsert k v fs) k = 1 := by
  induction fs with
  | nil => simp [dinsert, countKey, List.countP_cons]
  | cons p rest ih =>
      by_cases hk : p.1 = k
      · rw [countKey_cons, if_pos hk] at h
        have h0 : countKey rest k = 0 := by omega
        rw [show dinsert k v (p :: rest) = (k, v) :: rest from by simp [dinsert, hk]]
        rw [countKey_cons, if_pos rfl, h0]
      · rw [countKey_cons, if_neg hk] at h
        rw [show dinsert k v (p :: rest) = p :: dinsert k v rest from by simp [dinsert, hk]]
        rw [countKey_cons, if_neg hk, ih (by omega)]

theorem mem_dkeys_dinsert (x k : String) (v : α) (fs : List (String × α)) :
    x ∈ dkeys (dinsert k v fs) ↔ x = k ∨ x ∈ dkeys fs := by
  induction fs with
  | nil => simp [dinsert, dkeys]
  | cons p rest ih =>
      by_cases hk : p.1 = k
      · rw [show dinsert k v (p :: rest) = (k, v) :: rest from by simp [dinsert, hk]]
        rw [dkeys_cons, dkeys_cons, List.mem_cons, List.mem_cons]
        subst hk
        tauto
      · rw [show dinsert k v (p :: rest) = p :: dinsert k v rest from by simp [dinsert, hk]]
        rw [dkeys_cons, dkeys_cons, List.mem_cons, List.mem_cons, ih]
        tauto

theorem nodup_dkeys_dinsert (k : String) (v : α) (fs : List (String × α))
    (h : (dkeys fs).Nodup) : (dkeys (dinsert k v fs)).Nodup := by
  induction fs with
  | nil => simp [dinsert, dkeys]
  | cons p rest ih =>
      rw [dkeys_cons, List.nodup_cons] at h
      by_cases hk : p.1 = k
      · rw [show dinsert k v (p :: rest) = (k, v) :: rest from by simp [dinsert, hk]]
        rw [dkeys_cons, List.nodup_cons]
        exact ⟨hk ▸ h.1, h.2⟩
      · rw [show dinsert k v (p :: rest) = p :: dinsert k v rest from by simp [dinsert, hk]]
        rw [dkeys_cons, List.nodup_cons]
        refine ⟨?_, ih h.2⟩
        intro hmem
        rcases (mem_dkeys_dinsert p.1 k v rest).mp hmem with h1 | h2
        · exact hk h1
        · exact h.1 h2

theorem mem_dpop (k : String) (p : String × α) (fs : List (String × α))
    (h : p ∈ dpop k fs) : p ∈ fs := by
  induction fs with
  | nil => simp [dpop] at h
  | cons q rest ih =>
      by_cases hk : q.1 = k
      · rw [show dpop k (q :: rest) = rest from by simp [dpop, hk]] at h
        exact List.mem_cons_of_mem _ h
      · rw [show dpop k (q :: rest) = q :: dpop k rest from by simp [dpop, hk]] at h
        rcases List.mem_cons.mp h with h | h
        · exact h ▸ List.mem_cons_self _ _
        · exact List.mem_cons_of_mem _ (ih h)

theorem mem_dkeys_dpop (x k : String) (fs : List (String × α))
    (h : x ∈ dkeys (dpop k fs)) : x ∈ dkeys fs := by
  simp only [dkeys, List.mem_map] at h ⊢
  rcases h with ⟨p, hp, hx⟩
  exact ⟨p, mem_dpop k p fs hp, hx⟩

theorem nodup_dkeys_dpop (k : String) (fs : List (String × α))
    (h : (dkeys fs).Nodup) : (dkeys (dpop k fs)).Nodup := by
  induction fs with
  | nil => simp [dpop, dkeys]
  | cons p rest ih =>
      rw [dkeys_cons, List.nodup_cons] at h
      by_cases hk : p.1 = k
      · rw [show dpop k (p :: rest) = rest from by simp [dpop, hk]]
        exact h.2
      · rw [show dpop k (p :: rest) = p :: dpop k rest from by simp [dpop, hk]]
        rw [dkeys_cons, List.nodup_cons]
        exact ⟨fun hmem => h.1 (mem_dkeys_dpop p.1 k rest hmem), ih h.2⟩

/-! Section: Claim theorems -/

/-- C2.  For every registry state and every `MCPToolCall` (with its
declared types: a string name, a dict of arguments), `call_tool` returns
an `MCPToolResult` — it is a total function of the model, so it never
raises.  Unknown name → `is_error=true` with a diagnostic text block;
an executor exception → `is_error=true` with the exception's message
embedded in the single text block (prefixed by `"Invalid arguments: "`
for `TypeError`, `"Execution error: "` otherwise); success → the
executor's string in a single text block with `is_error=false`. -/
theorem c2_call_tool_total_and_classified (reg : MCPToolRegistry) (name : String)
    (args : List (String × JVal)) (cid : JVal) :
    (reg.execLookup (.str name) = none →
      reg.call_tool { name := .str name, arguments := .obj args, call_id := cid } =
        { content := [.text ⟨"Tool \x27" ++ name ++ "\x27 not found", none⟩],
          is_error := true, tool_name := .str name, call_id := cid }) ∧
    (∀ ex e, reg.execLookup (.str name) = some ex → ex args = .error e →
      (reg.call_tool { name := .str name, arguments := .obj args, call_id := cid }).is_error
          = true ∧
      ∃ pre, (reg.call_tool { name := .str name, arguments := .obj args, call_id := cid }).content
          = [.text ⟨pre ++ e.msg, none⟩]) ∧
    (∀ ex s, reg.execLookup (.str name) = some ex → ex args = .ok s →
      reg.call_tool { name := .str name, arguments := .obj args, call_id := cid } =
        { content := [.text ⟨s, none⟩], is_error := false,
          tool_name := .str name, call_id := cid }) := by
  refine ⟨fun h => ?_, fun ex e hl he => ?_, fun ex s hl hs => ?_⟩
  · simp [MCPToolRegistry.call_tool, h, pyStr]
  · cases e with
    | typeError m =>
        exact ⟨by simp [MCPToolRegistry.call_tool, hl, applyExecutor, he],
               "Invalid arguments: ",
               by simp [MCPToolRegistry.call_tool, hl, applyExecutor, he, PyErr.msg]⟩
    | runtimeError m =>
        exact ⟨by simp [MCPToolRegistry.call_tool, hl, applyExecutor, he],
               "Execution error: ",
               by simp [MCPToolRegistry.call_tool, hl, applyExecutor, he, PyErr.msg]⟩
    | attributeError m =>
        exact ⟨by simp [MCPToolRegistry.call_tool, hl, applyExecutor, he],
               "Execution error: ",
               by simp [MCPToolRegistry.call_tool, hl, applyExecutor, he, PyErr.msg]⟩
    | keyError m =>
        exact ⟨by simp [MCPToolRegistry.call_tool, hl, applyExecutor, he],
               "Execution error: ",
               by simp [MCPToolRegistry.call_tool, hl, applyExecutor, he, PyErr.msg]⟩
  · simp [MCPToolRegistry.call_tool, hl, applyExecutor, hs]

/-- Witness for C2: the three branches at concrete inputs on `echoReg`
(unknown tool `"missing"`, raising tool `"boom"`, echo of `"hi"`). -/
theorem c2_witness :
    echoReg.call_tool { name := .str "missing", arguments := .obj [], call_id := .null } =
      { content := [.text ⟨"Tool \x27missing\x27 not found", none⟩], is_error := true,
        tool_name := .str "missing", call_id := .null } ∧
    (echoReg.call_tool { name := .str "boom", arguments := .obj [], call_id := .null }).is_error
        = true ∧
    echoReg.call_tool
        { name := .str "echo", arguments := .obj [("text", .str "hi")], call_id := .null } =
      { content := [.text ⟨"hi", none⟩], is_error := false,
        tool_name := .str "echo", call_id := .null } := by
  refine ⟨(c2_call_tool_total_and_classified echoReg "missing" [] .null).1 rfl,
          ((c2_call_tool_total_and_classified echoReg "boom" [] .null).2.1
            boomExec (.runtimeError "boom") rfl rfl).1,
          (c2_call_tool_total_and_classified echoReg "echo" [("text", .str "hi")] .null).2.2
            echoExec "hi" rfl rfl⟩

/-- C9.  Scenario A: with the `echo` tool registered, handling
`tools/call {"name": "echo", "arguments": {"text": "hi"}}` yields a
successful JSON-RPC response whose result is exactly
`{"content": [{"type": "text", "text": "hi"}]}` — no `isError` key; and
in general `MCPToolResult.to_dict` carries an `isError` entry (with value
`true`) exactly when `is_error` is true. -/
theorem c9_scenario_a_iserror_key (r : MCPToolResult) :
    MCPServer.handle_tools_call srv0
        (.obj [("name", .str "echo"), ("arguments", .obj [("text", .str "hi")])]) (.str "1") =
      .ok (JSONRPCResponse.to_json
        { result := .obj [("content", .arr [.obj [("type", .str "text"), ("text", .str "hi")]])],
          id := .str "1" }) ∧
    isErrorEntry r.to_dict = (if r.is_error then some (.bool true) else none) := by
  refine ⟨rfl, ?_⟩
  cases hr : r.is_error <;>
    simp [isErrorEntry, MCPToolResult.to_dict, hr, dget]

/-- C3 counterexample.  The request params `{"name": ""}` carry a
*present* `name` that names no registered tool, yet — because the source
tests `if not name:` (Python truthiness) — the server answers with a
protocol-level INVALID_PARAMS error response, not the successful
JSON-RPC response carrying an `is_error=true` ToolResult that the claim
requires for every present-but-unknown name. -/
theorem c3_counterexample :
    MCPServer.handle_tools_call srv0 (.obj [("name", .str "")]) (.str "7") =
      .ok (JSONRPCError.to_json
        { code := INVALID_PARAMS, message := "Missing required parameter: name",
          id := .str "7" }) ∧
    MCPServer.handle_tools_call srv0 (.obj [("name", .str "")]) (.str "7") ≠
      .ok (JSONRPCResponse.to_json
        { result := (echoReg.call_tool
            { name := .str "", arguments := .obj [], call_id := .null }).to_dict,
          id := .str "7" }) := by
  refine ⟨rfl, fun h => ?_⟩
  exact absurd (Except.ok.inj h) (by decide)

/-- C3 amended.  A missing *or falsy* `name` (absent, `null`, `""`, `0`,
`false`, `[]`, `{}`) yields INVALID_PARAMS; a present, truthy (in
particular non-empty string) `name` always yields a *successful* JSON-RPC
response whose result payload is the registry's ToolResult — with
`is_error=true` when the name is unknown or the executor fails. -/
theorem c3_tools_call_dispatch (reg : MCPToolRegistry) (fields : List (String × JVal))
    (msg_id : JVal) :
    (pyTruthy (dgetD fields "name" .null) = false →
      MCPServer.handle_tools_call { registry := reg } (.obj fields) msg_id =
        .ok (JSONRPCError.to_json
          { code := INVALID_PARAMS, message := "Missing required parameter: name",
            id := msg_id })) ∧
    (∀ n, dget fields "name" = some (.str n) → n ≠ "" →
      MCPServer.handle_tools_call { registry := reg } (.obj fields) msg_id =
        .ok (JSONRPCResponse.to_json
          { result := (reg.call_tool
              { name := .str n, arguments := dgetD fields "arguments" (.obj []),
                call_id := .null }).to_dict,
            id := msg_id }) ∧
      (reg.execLookup (.str n) = none →
        (reg.call_tool
          { name := .str n, arguments := dgetD fields "arguments" (.obj []),
            call_id := .null }).is_error = true) ∧
      (∀ ex e, reg.execLookup (.str n) = some ex →
        applyExecutor ex (dgetD fields "arguments" (.obj [])) = .error e →
        (reg.call_tool
          { name := .str n, arguments := dgetD fields "arguments" (.obj []),
            call_id := .null }).is_error = true)) := by
  constructor
  · intro h
    simp [MCPServer.handle_tools_call, h]
  · intro n hn hne
    have hni : n.isEmpty = false := by
      cases hni : n.isEmpty
      · rfl
      · exact absurd ((String.isEmpty_iff n).mp hni) hne
    have htr : pyTruthy (.str n) = true := by simp [pyTruthy, hni]
    refine ⟨?_, fun hl => ?_, fun ex e hl he => ?_⟩
    · simp [MCPServer.handle_tools_call, dgetD, hn, htr]
    · simp [MCPToolRegistry.call_tool, hl]
    · cases e <;> simp [MCPToolRegistry.call_tool, hl, he]

/-- Witness for C3 (amended): the echo server answers an unknown,
non-empty tool name with a successful response carrying an error
ToolResult, and answers params without a `name` with INVALID_PARAMS. -/
theorem c3_witness :
    MCPServer.handle_tools_call srv0 (.obj []) (.str "9") =
      .ok (JSONRPCError.to_json
        { code := INVALID_PARAMS, message := "Missing required parameter: name",
          id := .str "9" }) ∧
    MCPServer.handle_tools_call srv0 (.obj [("name", .str "nope")]) (.str "9") =
      .ok (JSONRPCResponse.to_json
        { result := (echoReg.call_tool
            { name := .str "nope", arguments := .obj [], call_id := .null }).to_dict,
          id := .str "9" }) ∧
    (echoReg.call_tool { name := .str "nope", arguments := .obj [], call_id := .null }).is_error
        = true := by
  have h1 := (c3_tools_call_dispatch echoReg [] (.str "9")).1 rfl
  have h2 := (c3_tools_call_dispatch echoReg [("name", .str "nope")] (.str "9")).2 "nope"
    rfl (by decide)
  exact ⟨h1, (h2.1).trans (by rfl), h2.2.1 rfl⟩

/-- C7 (code bug).  First conjunct: unparsable input is answered with a
PARSE_ERROR (-32700) envelope and no exception — as the claim states.
Second conjunct: the well-formed JSON-RPC 2.0 notification
`{"jsonrpc": "2.0", "method": "notifications/cancelled", "params": []}`
(array `params` are legal JSON-RPC) makes `handle_message` raise
`AttributeError` — `params.get("requestId")` on a list — instead of
returning no output; `run()` has no handler around `handle_message`, so
this one line kills the server loop, contradicting both the claim and
the method's own docstring ("Returns: JSON string response, or None for
notifications"). -/
theorem c7_parse_error_and_notification_crash :
    (MCPServer.handle_message jl0 srv0 "not json").2 =
      .ok (some (JSONRPCError.to_json
        { code := PARSE_ERROR,
          message := "Parse error: Expecting value: line 1 column 1 (char 0)" })) ∧
    (MCPServer.handle_message jl0 srv0 "CANCELNOTIF").2 =
      .error (.attributeError "object has no attribute \x27get\x27") :=
  ⟨rfl, rfl⟩

/-- C1 counterexample.  On an empty response line (the child closed the
connection), `call_tool` does *not* raise: it catches the transport
`RuntimeError` and returns a fabricated `MCPToolResult` (`is_error=true`,
`"Server error: ..."`), and `ping` swallows the failure and returns
`False` — contradicting the claim that every client operation raises a
connection-level error on every transport failure. -/
theorem c1_counterexample :
    MCPClient.call_tool jl0 ioEmpty
        { name := .str "web_search", arguments := .obj [], call_id := .str "c1" } =
      .ok { content := [.text ⟨"Server error: MCP server closed connection (empty response)",
                              none⟩],
            is_error := true, tool_name := .str "web_search", call_id := .str "c1" } ∧
    MCPClient.ping jl0 ioEmpty = false :=
  ⟨rfl, rfl⟩

/-- C1 amended.  All four transport-failure kinds (broken pipe on write,
empty response line, malformed JSON, JSON-RPC error payload) make
`_send_request` raise `RuntimeError`; `list_tools` propagates that error
to its caller, but `call_tool` catches it and returns an `is_error=true`
result embedding the message as `"Server error: ..."`, and `ping`
returns `False` instead of raising. -/
theorem c1_transport_failure_behaviour (jloads : String → Except String JVal)
    (io : TransportIO) (e : String) (call : MCPToolCall)
    (h : MCPClient.send_request jloads io = .error (.runtimeError e)) :
    MCPClient.list_tools jloads io = .error (.runtimeError e) ∧
    MCPClient.call_tool jloads io call =
      .ok { content := [.text ⟨"Server error: " ++ e, none⟩], is_error := true,
            tool_name := call.name, call_id := call.call_id } ∧
    MCPClient.ping jloads io = false ∧
    (∀ m, io.writeOutcome = .error m →
      MCPClient.send_request jloads io =
        .error (.runtimeError ("Failed to send to MCP server: " ++ m))) ∧
    (io.writeOutcome = .ok () → io.readOutcome = .ok "" →
      MCPClient.send_request jloads io =
        .error (.runtimeError "MCP server closed connection (empty response)")) ∧
    (∀ line err, io.writeOutcome = .ok () → io.readOutcome = .ok line →
      line.isEmpty = false → jloads line.trim = .error err →
      MCPClient.send_request jloads io =
        .error (.runtimeError ("Invalid JSON from MCP server: " ++ err))) ∧
    (∀ line fs efs, io.writeOutcome = .ok () → io.readOutcome = .ok line →
      line.isEmpty = false → jloads line.trim = .ok (.obj fs) →
      dget fs "error" = some (.obj efs) →
      MCPClient.send_request jloads io =
        .error (.runtimeError
          ("MCP server error [" ++ pyStr (dgetD efs "code" (.str "?")) ++ "]: " ++
           pyStr (dgetD efs "message" (.str "unknown error"))))) := by
  refine ⟨?_, ?_, ?_, ?_, ?_, ?_, ?_⟩
  · simp [MCPClient.list_tools, h]
  · simp [MCPClient.call_tool, h]
  · simp [MCPClient.ping, h]
  · intro m hm
    simp [MCPClient.send_request, hm]
  · intro hw hr
    simp only [MCPClient.send_request, hw, hr]
    rfl
  · intro line err hw hr hne hj
    simp [MCPClient.send_request, hw, hr, hne, hj]
  · intro line fs efs hw hr hne hj herr
    simp [MCPClient.send_request, hw, hr, hne, hj, herr]

/-- Witness for C1 (amended), at the concrete empty-response transport:
`list_tools` raises the connection error, `call_tool` fabricates the
error result, `ping` reports `False`. -/
theorem c1_witness :
    MCPClient.list_tools jl0 ioEmpty =
      .error (.runtimeError "MCP server closed connection (empty response)") ∧
    MCPClient.call_tool jl0 ioEmpty { name := .str "t", arguments := .obj [], call_id := .null } =
      .ok { content := [.text ⟨"Server error: MCP server closed connection (empty response)",
                              none⟩],
            is_error := true, tool_name := .str "t", call_id := .null } ∧
    MCPClient.ping jl0 ioEmpty = false := by
  have h := c1_transport_failure_behaviour jl0 ioEmpty
    "MCP server closed connection (empty response)"
    { name := .str "t", arguments := .obj [], call_id := .null } rfl
  exact ⟨h.1, h.2.1, h.2.2.1⟩

/-- C4 counterexample.  `with MCPClient(...)` whose handshake fails: the
child is spawned, the initialize request raises, `connect` propagates the
exception without any cleanup, and — because `__enter__` raised —
`__exit__`/`disconnect` never runs.  The final state shows the spawned
child still alive and no terminate/kill action taken: an exit path that
leaves the server process running, refuting the claim. -/
theorem c4_counterexample :
    MCPClient.withClient cenvHandshakeFail {} none =
      ({ hasProcess := true, childSpawned := true, childAlive := true, connFlag := false },
       some (.runtimeError "MCP server closed connection (empty response)"), []) :=
  rfl

/-- C4 amended.  Whenever `disconnect()` actually runs it is robust: on
every path through its `try/except/finally` the process handle is
cleared and, if a process was held, the child is terminated (a
`terminate` or `kill` action is always issued).  Consequently every exit
path that goes through `__exit__` after a *successful* `connect` — the
normal path and the body-exception path alike — leaves no child process
running.  Only a failure inside `connect()` itself (the counterexample)
escapes this guarantee. -/
theorem c4_disconnect_on_exit_paths (st : ClientSt) (denv : DisconnectEnv)
    (cenv : ConnectEnv) (bodyErr : Option PyErr)
    (hc : (MCPClient.connect {} cenv).2.1 = none) :
    (MCPClient.disconnect st denv).1.hasProcess = false ∧
    (st.hasProcess = true →
      (MCPClient.disconnect st denv).1.childAlive = false ∧
      (ProcAction.terminate ∈ (MCPClient.disconnect st denv).2 ∨
       ProcAction.kill ∈ (MCPClient.disconnect st denv).2)) ∧
    ((MCPClient.withClient cenv denv bodyErr).1.hasProcess = false ∧
     (MCPClient.withClient cenv denv bodyErr).1.childAlive = false ∧
     (MCPClient.withClient cenv denv bodyErr).2.1 = bodyErr) := by
  have hdis : ∀ s : ClientSt, s.hasProcess = true →
      (MCPClient.disconnect s denv).1.hasProcess = false ∧
      (MCPClient.disconnect s denv).1.childAlive = false ∧
      (ProcAction.terminate ∈ (MCPClient.disconnect s denv).2 ∨
       ProcAction.kill ∈ (MCPClient.disconnect s denv).2) := by
    intro s hs
    by_cases hclose : denv.closeOk <;> by_cases hterm : denv.terminateOk <;>
      by_cases hwait : denv.waitOk <;>
        simp [MCPClient.disconnect, hs, hclose, hterm, hwait]
  refine ⟨?_, fun hp => ⟨(hdis st hp).2.1, (hdis st hp).2.2⟩, ?_⟩
  · by_cases hp : st.hasProcess
    · exact (hdis st hp).1
    · simp [MCPClient.disconnect, hp]
  · rcases hsp : cenv.spawnOutcome with es | u
    · exfalso
      simp [MCPClient.connect, hsp] at hc
    · rcases hini : cenv.initOutcome with ei | vi
      · exfalso
        simp [MCPClient.connect, hsp, hini] at hc
      · have hconn : MCPClient.connect {} cenv =
            ((⟨true, true, true, true⟩ : ClientSt), none, []) := by
          simp [MCPClient.connect, hsp, hini]
        have h1 := hdis (⟨true, true, true, true⟩ : ClientSt) rfl
        simp [MCPClient.withClient, hconn, h1.1, h1.2.1]

/-- Witness for C4 (amended): a successful connect followed by the
context-manager exit terminates the child on a concrete environment. -/
theorem c4_witness :
    (MCPClient.withClient cenvOk {} none).1.hasProcess = false ∧
    (MCPClient.withClient cenvOk {} none).1.childAlive = false ∧
    (MCPClient.disconnect (⟨true, true, true, true⟩ : ClientSt) {}).1.childAlive = false := by
  have h := c4_disconnect_on_exit_paths (⟨true, true, true, true⟩ : ClientSt)
    {} cenvOk none rfl
  exact ⟨h.2.2.1, h.2.2.2.1, (h.2.1 rfl).1⟩

/-- C8.  No public operation ever produces a zero-block `MCPToolResult`:
the registry's `call_tool` always returns exactly one content block; any
result the client's `call_tool` returns (for any server response,
including a response whose `content` array is empty or absent) has a
non-empty content list, the empty/absent case being replaced by the
`"(empty result)"` placeholder block. -/
theorem c8_content_never_empty (reg : MCPToolRegistry) (call : MCPToolCall)
    (jloads : String → Except String JVal) (io : TransportIO) (rcall : MCPToolCall)
    (r : MCPToolResult) :
    (reg.call_tool call).content.length = 1 ∧
    (MCPClient.call_tool jloads io rcall = .ok r → r.content ≠ []) ∧
    (∀ fs, MCPClient.send_request jloads io = .ok (.obj fs) →
      (dget fs "content" = none ∨ dget fs "content" = some (.arr [])) →
      MCPClient.call_tool jloads io rcall =
        .ok { content := [.text ⟨"(empty result)", none⟩],
              is_error := pyTruthy (dgetD fs "isError" (.bool false)),
              tool_name := rcall.name, call_id := rcall.call_id }) := by
  refine ⟨?_, ?_, ?_⟩
  · rcases hl : reg.execLookup call.name with _ | ex
    · simp [MCPToolRegistry.call_tool, hl]
    · rcases ha : applyExecutor ex call.arguments with e | s
      · cases e <;> simp [MCPToolRegistry.call_tool, hl, ha]
      · simp [MCPToolRegistry.call_tool, hl, ha]
  · intro hok
    rcases hsr : MCPClient.send_request jloads io with e | v
    · cases e with
      | runtimeError m =>
          simp only [MCPClient.call_tool, hsr] at hok
          have := Except.ok.inj hok
          rw [← this]
          simp
      | typeError m =>
          simp only [MCPClient.call_tool, hsr] at hok
          exact Except.noConfusion hok
      | attributeError m =>
          simp only [MCPClient.call_tool, hsr] at hok
          exact Except.noConfusion hok
      | keyError m =>
          simp only [MCPClient.call_tool, hsr] at hok
          exact Except.noConfusion hok
    · rcases v with _ | b | n | s | xs | rfields
      case ok.obj =>
        simp only [MCPClient.call_tool, hsr] at hok
        rcases hit : MCPClient.iterContent (dgetD rfields "content" (.arr [])) with e | blocks
        · simp only [hit] at hok
          exact Except.noConfusion hok
        · simp only [hit] at hok
          rcases hpb : MCPClient.parseBlocks blocks with e | cbs
          · simp only [hpb] at hok
            exact Except.noConfusion hok
          · simp only [hpb] at hok
            have := Except.ok.inj hok
            rw [← this]
            by_cases hemp : cbs.isEmpty
            · simp [hemp]
            · simp [hemp]
              rw [← List.isEmpty_iff]
              simpa using hemp
      all_goals
        simp only [MCPClient.call_tool, hsr] at hok
        exact Except.noConfusion hok
  · intro fs hsr hcon
    have hc : dgetD fs "content" (.arr []) = .arr [] := by
      rcases hcon with h | h <;> simp [dgetD, h]
    simp only [MCPClient.call_tool, hsr, hc]
    rfl

/-- Witness for C8: on a server response with no `content` key at all,
the client substitutes the placeholder block; the registry result for an
unknown tool is a single block. -/
theorem c8_witness :
    (echoReg.call_tool
      { name := .str "missing", arguments := .obj [], call_id := .null }).content.length = 1 ∧
    MCPClient.call_tool jlOkEmpty ioGarbage
        { name := .str "t", arguments := .obj [], call_id := .null } =
      .ok { content := [.text ⟨"(empty result)", none⟩], is_error := false,
            tool_name := .str "t", call_id := .null } := by
  have h := c8_content_never_empty echoReg
    { name := .str "missing", arguments := .obj [], call_id := .null }
    jlOkEmpty ioGarbage { name := .str "t", arguments := .obj [], call_id := .null }
    { content := [], is_error := false, tool_name := .null, call_id := .null }
  exact ⟨h.1, (h.2.2 [] rfl (Or.inl rfl)).trans (by rfl)⟩

theorem dget_cons_self (k : String) (v : α) (rest : List (String × α)) :
    dget ((k, v) :: rest) k = some v := by simp [dget]

theorem mem_dinsert (p : String × α) (k : String) (v : α) (fs : List (String × α))
    (h : p ∈ dinsert k v fs) : p = (k, v) ∨ p ∈ fs := by
  induction fs with
  | nil => simpa [dinsert] using h
  | cons q rest ih =>
      by_cases hq : q.1 = k
      · rw [show dinsert k v (q :: rest) = (k, v) :: rest from by simp [dinsert, hq]] at h
        rcases List.mem_cons.mp h with h1 | h2
        · exact Or.inl h1
        · exact Or.inr (List.mem_cons_of_mem _ h2)
      · rw [show dinsert k v (q :: rest) = q :: dinsert k v rest from by
          simp [dinsert, hq]] at h
        rcases List.mem_cons.mp h with h1 | h2
        · exact Or.inr (h1 ▸ List.mem_cons_self _ _)
        · rcases ih h2 with h3 | h4
          · exact Or.inl h3
          · exact Or.inr (List.mem_cons_of_mem _ h4)

theorem registryWF_empty : RegistryWF MCPToolRegistry.empty :=
  ⟨fun p hp => absurd hp (List.not_mem_nil p), List.nodup_nil, List.nodup_nil⟩

theorem registryWF_register (reg : MCPToolRegistry) (h : RegistryWF reg) (t : MCPTool)
    (ex : Executor) : RegistryWF (reg.register_tool t ex) := by
  refine ⟨?_, ?_, ?_⟩
  · intro p hp
    rcases mem_dinsert p t.name t reg._tools hp with h1 | h2
    · rw [h1]
    · exact h.named p h2
  · exact nodup_dkeys_dinsert t.name t reg._tools h.nodupTools
  · exact nodup_dkeys_dinsert t.name ex reg._executors h.nodupExecs

theorem registryWF_unregister (reg : MCPToolRegistry) (h : RegistryWF reg) (nm : String) :
    RegistryWF (reg.unregister_tool nm).2 := by
  refine ⟨?_, ?_, ?_⟩
  · intro p hp
    exact h.named p (mem_dpop nm p reg._tools hp)
  · exact nodup_dkeys_dpop nm reg._tools h.nodupTools
  · exact nodup_dkeys_dpop nm reg._executors h.nodupExecs

/-- C10.  Registry algebra: on any well-formed registry state (an
invariant that `empty`, `register_tool` and `unregister_tool` all
preserve — see the last three conjuncts), the `tools/list` output names
are exactly the registered names in catalog order; registering a tool
(also under an already-taken name) always succeeds — the model is a
total function — and leaves exactly one catalog entry for that name;
`call_tool` after a double registration under the same name runs the
most recently registered executor; and each entry's `inputSchema`
round-trips unchanged through `MCPTool.to_dict` serialization and the
client's `tools/list` entry parsing. -/
theorem c10_registry_list_register_roundtrip (reg : MCPToolRegistry) (h : RegistryWF reg)
    (t : MCPTool) (ex1 ex2 : Executor) (args : List (String × JVal)) (s : String)
    (cid : JVal) (nm : String) (hex : ex2 args = .ok s) :
    namesOfListOutput reg.list_tools = dkeys reg._tools ∧
    countKey ((reg.register_tool t ex1)._tools) t.name = 1 ∧
    countKey (((reg.register_tool t ex1).register_tool t ex2)._tools) t.name = 1 ∧
    ((reg.register_tool t ex1).register_tool t ex2).call_tool
        { name := .str t.name, arguments := .obj args, call_id := cid } =
      { content := [.text ⟨s, none⟩], is_error := false,
        tool_name := .str t.name, call_id := cid } ∧
    (∃ t', MCPClient.parseTool t.to_dict = .ok t' ∧
       t'.name = t.name ∧ t'.input_schema = t.input_schema) ∧
    RegistryWF MCPToolRegistry.empty ∧
    RegistryWF (reg.register_tool t ex1) ∧
    RegistryWF (reg.unregister_tool nm).2 := by
  have hnames : ∀ fs : List (String × MCPTool), (∀ p ∈ fs, p.1 = p.2.name) →
      (fs.map (fun p => p.2.to_dict)).filterMap (fun v =>
        match v with
        | JVal.obj tfields =>
            (match dget tfields "name" with
             | some (.str nmv) => some nmv
             | _ => none)
        | _ => none) = dkeys fs := by
    intro fs
    induction fs with
    | nil => intro _; rfl
    | cons p rest ih =>
        intro hp
        have hhead : p.1 = p.2.name := hp p (List.mem_cons_self _ _)
        have htail := ih (fun q hq => hp q (List.mem_cons_of_mem _ hq))
        simp only [List.map_cons, List.filterMap_cons, MCPTool.to_dict, List.cons_append,
          List.nil_append, dget_cons_self]
        rw [dkeys_cons, hhead]
        exact congrArg _ htail
  refine ⟨?_, ?_, ?_, ?_, ?_, registryWF_empty, registryWF_register reg h t ex1,
    registryWF_unregister reg h nm⟩
  · simpa [MCPToolRegistry.list_tools, namesOfListOutput, dget] using
      hnames reg._tools h.named
  · exact countKey_dinsert_self t.name t reg._tools
      (countKey_le_one_of_nodup reg._tools t.name h.nodupTools)
  · exact countKey_dinsert_self t.name t (dinsert t.name t reg._tools)
      (le_of_eq (countKey_dinsert_self t.name t reg._tools
        (countKey_le_one_of_nodup reg._tools t.name h.nodupTools)))
  · have hl : ((reg.register_tool t ex1).register_tool t ex2).execLookup (.str t.name) =
        some ex2 := by
      simp only [MCPToolRegistry.execLookup, MCPToolRegistry.register_tool]
      exact dget_dinsert_self t.name ex2 _
    simp [MCPToolRegistry.call_tool, hl, applyExecutor, hex]
  · exact ⟨_, rfl, rfl, rfl⟩

/-- Witness for C10, on the concrete two-tool registry: listed names,
single catalog entry after re-registration, and last-write-wins executor
dispatch. -/
theorem c10_witness :
    namesOfListOutput echoReg.list_tools = ["echo", "boom"] ∧
    countKey ((echoReg.register_tool echoTool echoExec)._tools) "echo" = 1 ∧
    ((echoReg.register_tool echoTool echoExec).register_tool echoTool
        (fun _ => .ok "v2")).call_tool
        { name := .str "echo", arguments := .obj [], call_id := .null } =
      { content := [.text ⟨"v2", none⟩], is_error := false,
        tool_name := .str "echo", call_id := .null } := by
  have hwf : RegistryWF echoReg :=
    registryWF_register _ (registryWF_register _ registryWF_empty echoTool echoExec)
      { name := "boom" } boomExec
  have h := c10_registry_list_register_roundtrip echoReg hwf echoTool echoExec
    (fun _ => .ok "v2") [] "v2" .null "x" rfl
  exact ⟨h.1.trans (by rfl), h.2.1, h.2.2.2.1⟩

theorem llmCallsOf_append (a b : List LoopEvent) :
    llmCallsOf (a ++ b) = llmCallsOf a ++ llmCallsOf b := by
  simp [llmCallsOf, List.filterMap_append]

theorem dispatchCallsOf_append (a b : List LoopEvent) :
    dispatchCallsOf (a ++ b) = dispatchCallsOf a ++ dispatchCallsOf b := by
  simp [dispatchCallsOf, List.filterMap_append]

theorem toolMsgIdsOf_append (a b : List LoopEvent) :
    toolMsgIdsOf (a ++ b) = toolMsgIdsOf a ++ toolMsgIdsOf b := by
  simp [toolMsgIdsOf, List.filterMap_append]

theorem assistantAppends_append (a b : List LoopEvent) :
    assistantAppends (a ++ b) = assistantAppends a + assistantAppends b := by
  simp [assistantAppends, List.countP_append]

theorem execOneToolCall_spec (jloads : String → Except String JVal)
    (reg : MCPToolRegistry) (n : Nat) (t : TcSpec) :
    execOneToolCall jloads reg n t.toJVal =
      .ok (t.toCall, reg.call_tool t.toCall,
           (reg.call_tool t.toCall).to_llm_tool_result) := rfl

theorem runToolCalls_spec (jloads : String → Except String JVal)
    (reg : MCPToolRegistry) (n : Nat) (ts : List TcSpec) :
    runToolCalls jloads reg n (ts.map TcSpec.toJVal) =
      (ts.map (fun t => (reg.call_tool t.toCall).to_llm_tool_result),
       ts.flatMap (fun t => [LoopEvent.toolDispatch t.toCall (reg.call_tool t.toCall),
                             LoopEvent.appendToolResult (.str t.tcid)]),
       none) := by
  induction ts with
  | nil => rfl
  | cons t ts ih =>
      simp only [List.map_cons, List.flatMap_cons, runToolCalls, execOneToolCall_spec, ih,
        List.cons_append, List.nil_append]
      rfl

theorem execOneToolCall_ok_of_wf (jloads : String → Except String JVal)
    (reg : MCPToolRegistry) (n : Nat) (tc : JVal) (h : wfToolCall tc = true) :
    ∃ out, execOneToolCall jloads reg n tc = .ok out := by
  cases tc with
  | obj tfields =>
      cases hf : dgetD tfields "function" (.obj []) with
      | obj ffields =>
          rcases hex : execOneToolCall jloads reg n (.obj tfields) with e | out
          · simp only [execOneToolCall, hf] at hex
            exact Except.noConfusion hex
          · exact ⟨out, rfl⟩
      | null => exact absurd h (by simp [wfToolCall, hf])
      | bool b => exact absurd h (by simp [wfToolCall, hf])
      | num m => exact absurd h (by simp [wfToolCall, hf])
      | str s => exact absurd h (by simp [wfToolCall, hf])
      | arr xs => exact absurd h (by simp [wfToolCall, hf])
  | null => exact absurd h (by simp [wfToolCall])
  | bool b => exact absurd h (by simp [wfToolCall])
  | num m => exact absurd h (by simp [wfToolCall])
  | str s => exact absurd h (by simp [wfToolCall])
  | arr xs => exact absurd h (by simp [wfToolCall])

theorem runToolCalls_wf (jloads : String → Except String JVal) (reg : MCPToolRegistry)
    (n : Nat) (tcs : List JVal) (h : ∀ tc ∈ tcs, wfToolCall tc = true) :
    (runToolCalls jloads reg n tcs).2.2 = none ∧
    llmCallsOf (runToolCalls jloads reg n tcs).2.1 = [] ∧
    assistantAppends (runToolCalls jloads reg n tcs).2.1 = 0 := by
  induction tcs with
  | nil => exact ⟨rfl, rfl, rfl⟩
  | cons tc rest ih =>
      obtain ⟨out, hout⟩ := execOneToolCall_ok_of_wf jloads reg n tc
        (h tc (List.mem_cons_self _ _))
      obtain ⟨c, r, msg⟩ := out
      obtain ⟨h1, h2, h3⟩ := ih (fun q hq => h q (List.mem_cons_of_mem _ hq))
      rcases hrun : runToolCalls jloads reg n rest with ⟨ms, evs, err⟩
      rw [hrun] at h1 h2 h3
      simp only at h1 h2 h3
      refine ⟨?_, ?_, ?_⟩
      · simp only [runToolCalls, hout, hrun]
        exact h1
      · simp only [runToolCalls, hout, hrun]
        simpa [llmCallsOf] using h2
      · simp only [runToolCalls, hout, hrun]
        simpa [assistantAppends, List.countP_cons] using h3

theorem range_flatMap_succ (m : Nat) (B : Nat → List β) :
    (List.range (m + 1)).flatMap B = B 0 ++ (List.range m).flatMap (fun x => B (x + 1)) := by
  rw [List.range_succ_eq_map, List.flatMap_cons, List.flatMap_map]

theorem toolLoop_stop (jloads : String → Except String JVal) (llm : LLMOracle)
    (reg : MCPToolRegistry) (toolsJ : JVal) (r idx : Nat) (msgs : List JVal)
    (h : pyTruthy (dgetD (llm idx msgs (some toolsJ)) "tool_calls" .null) = false) :
    toolLoop jloads llm reg toolsJ (r + 1) idx msgs =
      (.ok (dgetD (llm idx msgs (some toolsJ)) "content" (.str "")), msgs,
       [LoopEvent.llmCall idx true]) := by
  simp only [toolLoop, h, Bool.not_false, if_true]

theorem toolLoop_succ_of_toolcalls (jloads : String → Except String JVal) (llm : LLMOracle)
    (reg : MCPToolRegistry) (toolsJ : JVal) (r idx : Nat) (msgs : List JVal)
    (tcs : List JVal) (tms : List JVal) (tevs : List LoopEvent)
    (htc : dgetD (llm idx msgs (some toolsJ)) "tool_calls" .null = .arr tcs)
    (hne : tcs ≠ [])
    (hrun : runToolCalls jloads reg idx tcs = (tms, tevs, none)) :
    toolLoop jloads llm reg toolsJ (r + 1) idx msgs =
      ((toolLoop jloads llm reg toolsJ r (idx + 1)
          ((msgs ++ [assistantMsg (llm idx msgs (some toolsJ)) (.arr tcs)]) ++ tms)).1,
       (toolLoop jloads llm reg toolsJ r (idx + 1)
          ((msgs ++ [assistantMsg (llm idx msgs (some toolsJ)) (.arr tcs)]) ++ tms)).2.1,
       (LoopEvent.llmCall idx true :: LoopEvent.appendAssistant :: tevs) ++
         (toolLoop jloads llm reg toolsJ r (idx + 1)
            ((msgs ++ [assistantMsg (llm idx msgs (some toolsJ)) (.arr tcs)]) ++ tms)).2.2) := by
  have ht2 : pyTruthy (JVal.arr tcs) = true := by
    simp [pyTruthy]
    exact hne
  simp only [toolLoop, htc, ht2, Bool.not_true, Bool.false_eq_true, if_false,
    iterToolCalls, hrun]

theorem toolLoop_always_tools (jloads : String → Except String JVal) (llm : LLMOracle)
    (reg : MCPToolRegistry) (toolsJ : JVal)
    (hTools : ∀ i msgs, ∃ tcs,
      dgetD (llm i msgs (some toolsJ)) "tool_calls" .null = .arr tcs ∧
      tcs ≠ [] ∧ ∀ tc ∈ tcs, wfToolCall tc = true) :
    ∀ rem idx msgs,
      (toolLoop jloads llm reg toolsJ rem idx msgs).1 =
        .ok (dgetD (llm (idx + rem) (toolLoop jloads llm reg toolsJ rem idx msgs).2.1 none)
          "content" (.str "")) ∧
      llmCallsOf (toolLoop jloads llm reg toolsJ rem idx msgs).2.2 =
        ((List.range rem).map (fun j => (idx + j, true))) ++ [(idx + rem, false)] ∧
      assistantAppends (toolLoop jloads llm reg toolsJ rem idx msgs).2.2 = rem ∧
      (toolLoop jloads llm reg toolsJ rem idx msgs).2.2.getLast? =
        some (.llmCall (idx + rem) false) := by
  intro rem
  induction rem with
  | zero => exact fun idx msgs => ⟨rfl, rfl, rfl, rfl⟩
  | succ r ih =>
      intro idx msgs
      obtain ⟨tcs, htc, hne, hwf⟩ := hTools idx msgs
      rcases hrun : runToolCalls jloads reg idx tcs with ⟨tms, tevs, err⟩
      obtain ⟨he1, he2, he3⟩ := runToolCalls_wf jloads reg idx tcs hwf
      rw [hrun] at he1 he2 he3
      simp only at he1 he2 he3
      subst he1
      have hstep := toolLoop_succ_of_toolcalls jloads llm reg toolsJ r idx msgs
        tcs tms tevs htc hne hrun
      obtain ⟨ih1, ih2, ih3, ih4⟩ := ih (idx + 1)
        ((msgs ++ [assistantMsg (llm idx msgs (some toolsJ)) (.arr tcs)]) ++ tms)
      have hnonnil : (toolLoop jloads llm reg toolsJ r (idx + 1)
          ((msgs ++ [assistantMsg (llm idx msgs (some toolsJ)) (.arr tcs)]) ++ tms)).2.2 ≠
            [] := by
        intro hnil
        rw [hnil] at ih4
        simp at ih4
      rw [hstep]
      refine ⟨?_, ?_, ?_, ?_⟩
      · simp only
        rw [ih1]
        have : idx + (r + 1) = (idx + 1) + r := by omega
        rw [this]
      · simp only
        rw [llmCallsOf_append]
        have hblock : llmCallsOf (LoopEvent.llmCall idx true :: LoopEvent.appendAssistant ::
            tevs) = (idx, true) :: llmCallsOf tevs := rfl
        rw [hblock, he2, ih2, List.range_succ_eq_map, List.map_cons, List.map_map]
        have hcomp : ((fun j => (idx + j, true)) ∘ (· + 1)) =
            (fun j => ((idx + 1) + j, true)) := by
          funext j
          simp [Nat.add_comm, Nat.add_assoc, Nat.add_left_comm]
        have hidx : idx + (r + 1) = (idx + 1) + r := by omega
        simp [hcomp, hidx]
      · simp only
        rw [assistantAppends_append]
        have hblock : assistantAppends (LoopEvent.llmCall idx true ::
            LoopEvent.appendAssistant :: tevs) = 1 + assistantAppends tevs := by
          simp [assistantAppends, List.countP_cons]
          omega
        rw [hblock, he3, ih3]
        omega
      · simp only
        rw [List.getLast?_append_of_ne_nil _ hnonnil, ih4]
        have : idx + (r + 1) = (idx + 1) + r := by omega
        rw [this]

/-- C5.  If the completion interface requests at least one (processable)
tool call on every round, `call_llm(use_tools=True)` with round budget
`N` performs tool dispatch in exactly `N` rounds (one assistant
tool-request append per round), makes exactly one final completion call
with the tool schemas disabled — the last event of the run — and returns
that final call's text content verbatim (`response.get("content", "")`),
dispatching no further tools whatever the final response contains. -/
theorem c5_round_budget_exhaustion (jloads : String → Except String JVal)
    (llm : LLMOracle) (reg : MCPToolRegistry) (system_prompt : Option String)
    (prompt : String) (N : Nat)
    (hTools : ∀ i msgs, ∃ tcs,
      dgetD (llm i msgs (some (.arr reg.get_tools_for_llm))) "tool_calls" .null = .arr tcs ∧
      tcs ≠ [] ∧ ∀ tc ∈ tcs, wfToolCall tc = true) :
    (call_llm_with_tools jloads llm reg system_prompt prompt N).1 =
      dgetD (llm N (call_llm_with_tools jloads llm reg system_prompt prompt N).2.1 none)
        "content" (.str "") ∧
    llmCallsOf (call_llm_with_tools jloads llm reg system_prompt prompt N).2.2 =
      ((List.range N).map (fun j => (j, true))) ++ [(N, false)] ∧
    assistantAppends (call_llm_with_tools jloads llm reg system_prompt prompt N).2.2 = N ∧
    (call_llm_with_tools jloads llm reg system_prompt prompt N).2.2.getLast? =
      some (.llmCall N false) := by
  obtain ⟨h1, h2, h3, h4⟩ := toolLoop_always_tools jloads llm reg
    (.arr reg.get_tools_for_llm) hTools N 0 (initialMessages system_prompt prompt)
  rcases htl : toolLoop jloads llm reg (.arr reg.get_tools_for_llm) N 0
      (initialMessages system_prompt prompt) with ⟨res, m, evs⟩
  rw [htl] at h1 h2 h3 h4
  simp only [Nat.zero_add] at h1 h2 h3 h4
  have hcall : call_llm_with_tools jloads llm reg system_prompt prompt N =
      (dgetD (llm N m none) "content" (.str ""), m, evs) := by
    simp only [call_llm_with_tools, htl, h1]
  rw [hcall]
  exact ⟨rfl, h2, h3, h4⟩

/-- Witness for C5: a scripted LLM that always requests one `echo` call,
with round budget 2. -/
theorem c5_witness :
    llmCallsOf (call_llm_with_tools jl0 llmAlways echoReg none "go" 2).2.2 =
      [(0, true), (1, true), (2, false)] ∧
    assistantAppends (call_llm_with_tools jl0 llmAlways echoReg none "go" 2).2.2 = 2 ∧
    (call_llm_with_tools jl0 llmAlways echoReg none "go" 2).1 = .str "" := by
  have hyp : ∀ i msgs, ∃ tcs,
      dgetD (llmAlways i msgs (some (.arr echoReg.get_tools_for_llm))) "tool_calls" .null =
        .arr tcs ∧ tcs ≠ [] ∧ ∀ tc ∈ tcs, wfToolCall tc = true := by
    intro i msgs
    refine ⟨(tcsW 0).map TcSpec.toJVal, rfl, by simp [tcsW], ?_⟩
    intro tc htc
    simp [tcsW, TcSpec.toJVal] at htc
    subst htc
    rfl
  have h := c5_round_budget_exhaustion jl0 llmAlways echoReg none "go" 2 hyp
  exact ⟨by rw [h.2.1]; rfl, h.2.2.1, by rw [h.1]; rfl⟩

theorem toolLoop_script (jloads : String → Except String JVal) (llm : LLMOracle)
    (reg : MCPToolRegistry) (toolsJ : JVal) (k N : Nat) (tcs : Nat → List TcSpec)
    (txt : String)
    (hs : ∀ i msgs tools, i < k →
      llm i msgs tools = [("tool_calls", .arr ((tcs i).map TcSpec.toJVal))])
    (hne : ∀ i, i < k → tcs i ≠ [])
    (hfin : ∀ msgs tools, llm k msgs tools = [("content", .str txt)]) :
    ∀ d j msgs, j + d = k → k ≤ N →
      toolLoop jloads llm reg toolsJ (N - j) j msgs =
        (.ok (.str txt),
         msgs ++ (List.range d).flatMap (fun x =>
           assistantMsg [("tool_calls", JVal.arr ((tcs (j + x)).map TcSpec.toJVal))]
               (.arr ((tcs (j + x)).map TcSpec.toJVal)) ::
             (tcs (j + x)).map (fun t => (reg.call_tool t.toCall).to_llm_tool_result)),
         (List.range d).flatMap (fun x =>
           LoopEvent.llmCall (j + x) true :: LoopEvent.appendAssistant ::
             (tcs (j + x)).flatMap (fun t =>
               [LoopEvent.toolDispatch t.toCall (reg.call_tool t.toCall),
                LoopEvent.appendToolResult (.str t.tcid)])) ++
           [LoopEvent.llmCall k (decide (k < N))]) := by
  intro d
  induction d with
  | zero =>
      intro j msgs hj hk
      have hjk : j = k := by omega
      subst hjk
      by_cases hkN : j < N
      · obtain ⟨m, hm⟩ : ∃ m, N - j = m + 1 := ⟨N - j - 1, by omega⟩
        have hd : decide (j < N) = true := decide_eq_true hkN
        rw [hm, toolLoop_stop jloads llm reg toolsJ m j msgs (by rw [hfin]; rfl),
          hfin msgs (some toolsJ)]
        simp [hd, dgetD, dget]
      · have hNk : N - j = 0 := by omega
        have hd : decide (j < N) = false := decide_eq_false hkN
        rw [hNk]
        rw [show toolLoop jloads llm reg toolsJ 0 j msgs =
          (.ok (dgetD (llm j msgs none) "content" (.str "")), msgs,
           [LoopEvent.llmCall j false]) from rfl]
        rw [hfin msgs none]
        simp [hd, dgetD, dget]
  | succ d ihd =>
      intro j msgs hj hk
      have hjk : j < k := by omega
      have hmapne : (tcs j).map TcSpec.toJVal ≠ [] := by
        simpa using hne j hjk
      have hstep := toolLoop_succ_of_toolcalls jloads llm reg toolsJ (N - (j + 1)) j msgs
        ((tcs j).map TcSpec.toJVal)
        ((tcs j).map (fun t => (reg.call_tool t.toCall).to_llm_tool_result))
        ((tcs j).flatMap (fun t =>
          [LoopEvent.toolDispatch t.toCall (reg.call_tool t.toCall),
           LoopEvent.appendToolResult (.str t.tcid)]))
        (by rw [hs j msgs (some toolsJ) hjk]; rfl)
        hmapne
        (runToolCalls_spec jloads reg j (tcs j))
      rw [hs j msgs (some toolsJ) hjk] at hstep
      have hNj : N - j = (N - (j + 1)) + 1 := by omega
      rw [hNj, hstep]
      have hrec := ihd (j + 1)
        ((msgs ++ [assistantMsg [("tool_calls", JVal.arr ((tcs j).map TcSpec.toJVal))]
            (.arr ((tcs j).map TcSpec.toJVal))]) ++
          (tcs j).map (fun t => (reg.call_tool t.toCall).to_llm_tool_result))
        (by omega) hk
      rw [hrec]
      refine Prod.ext rfl (Prod.ext ?_ ?_)
      · show ((msgs ++ [assistantMsg [("tool_calls", JVal.arr ((tcs j).map TcSpec.toJVal))]
            (.arr ((tcs j).map TcSpec.toJVal))]) ++
          (tcs j).map (fun t => (reg.call_tool t.toCall).to_llm_tool_result)) ++
            (List.range d).flatMap (fun x =>
              assistantMsg [("tool_calls", JVal.arr ((tcs (j + 1 + x)).map TcSpec.toJVal))]
                  (.arr ((tcs (j + 1 + x)).map TcSpec.toJVal)) ::
                (tcs (j + 1 + x)).map
                  (fun t => (reg.call_tool t.toCall).to_llm_tool_result)) =
          msgs ++ (List.range (d + 1)).flatMap (fun x =>
            assistantMsg [("tool_calls", JVal.arr ((tcs (j + x)).map TcSpec.toJVal))]
                (.arr ((tcs (j + x)).map TcSpec.toJVal)) ::
              (tcs (j + x)).map (fun t => (reg.call_tool t.toCall).to_llm_tool_result))
        rw [range_flatMap_succ]
        simp only [Nat.add_succ, Nat.succ_add, Nat.add_zero]
        simp [List.append_assoc]
      · show (LoopEvent.llmCall j true :: LoopEvent.appendAssistant ::
            (tcs j).flatMap (fun t =>
              [LoopEvent.toolDispatch t.toCall (reg.call_tool t.toCall),
               LoopEvent.appendToolResult (.str t.tcid)])) ++
            ((List.range d).flatMap (fun x =>
              LoopEvent.llmCall (j + 1 + x) true :: LoopEvent.appendAssistant ::
                (tcs (j + 1 + x)).flatMap (fun t =>
                  [LoopEvent.toolDispatch t.toCall (reg.call_tool t.toCall),
                   LoopEvent.appendToolResult (.str t.tcid)])) ++
              [LoopEvent.llmCall k (decide (k < N))]) =
          (List.range (d + 1)).flatMap (fun x =>
            LoopEvent.llmCall (j + x) true :: LoopEvent.appendAssistant ::
              (tcs (j + x)).flatMap (fun t =>
                [LoopEvent.toolDispatch t.toCall (reg.call_tool t.toCall),
                 LoopEvent.appendToolResult (.str t.tcid)])) ++
            [LoopEvent.llmCall k (decide (k < N))]
        rw [range_flatMap_succ]
        simp only [Nat.add_succ, Nat.succ_add, Nat.add_zero]
        simp [List.append_assoc]

theorem dispatchCallsOf_flatMap (l : List α) (g : α → List LoopEvent) :
    dispatchCallsOf (l.flatMap g) = l.flatMap (fun a => dispatchCallsOf (g a)) := by
  induction l with
  | nil => rfl
  | cons a l ih => rw [List.flatMap_cons, dispatchCallsOf_append, ih, List.flatMap_cons]

theorem toolMsgIdsOf_flatMap (l : List α) (g : α → List LoopEvent) :
    toolMsgIdsOf (l.flatMap g) = l.flatMap (fun a => toolMsgIdsOf (g a)) := by
  induction l with
  | nil => rfl
  | cons a l ih => rw [List.flatMap_cons, toolMsgIdsOf_append, ih, List.flatMap_cons]

theorem assistantAppends_flatMap (l : List α) (g : α → List LoopEvent) :
    assistantAppends (l.flatMap g) = (l.map (fun a => assistantAppends (g a))).sum := by
  induction l with
  | nil => rfl
  | cons a l ih =>
      rw [List.flatMap_cons, assistantAppends_append, ih, List.map_cons, List.sum_cons]

theorem dispatchCallsOf_pairs (reg : MCPToolRegistry) (ts : List TcSpec) :
    dispatchCallsOf (ts.flatMap (fun t =>
      [LoopEvent.toolDispatch t.toCall (reg.call_tool t.toCall),
       LoopEvent.appendToolResult (.str t.tcid)])) = ts.map TcSpec.toCall := by
  induction ts with
  | nil => rfl
  | cons t ts ih =>
      rw [List.flatMap_cons, dispatchCallsOf_append, ih, List.map_cons]
      rfl

theorem toolMsgIdsOf_pairs (reg : MCPToolRegistry) (ts : List TcSpec) :
    toolMsgIdsOf (ts.flatMap (fun t =>
      [LoopEvent.toolDispatch t.toCall (reg.call_tool t.toCall),
       LoopEvent.appendToolResult (.str t.tcid)])) =
      ts.map (fun t => JVal.str t.tcid) := by
  induction ts with
  | nil => rfl
  | cons t ts ih =>
      rw [List.flatMap_cons, toolMsgIdsOf_append, ih, List.map_cons]
      rfl

theorem assistantAppends_pairs (reg : MCPToolRegistry) (ts : List TcSpec) :
    assistantAppends (ts.flatMap (fun t =>
      [LoopEvent.toolDispatch t.toCall (reg.call_tool t.toCall),
       LoopEvent.appendToolResult (.str t.tcid)])) = 0 := by
  induction ts with
  | nil => rfl
  | cons t ts ih =>
      rw [List.flatMap_cons, assistantAppends_append, ih]
      rfl

theorem map_sum_one (l : List α) (f : α → Nat) (h : ∀ a ∈ l, f a = 1) :
    (l.map f).sum = l.length := by
  induction l with
  | nil => rfl
  | cons a l ih =>
      simp [h a (List.mem_cons_self _ _), ih (fun b hb => h b (List.mem_cons_of_mem _ hb))]
      omega

/-- C6.  Scripted-run shape of the agentic loop: if the LLM answers `k`
rounds (each with the listed tool-call requests, `k ≤ N`) and then a
plain-text response, the run returns that text, and its full message and
event histories are exactly the per-round blocks in order — for every
round, one appended assistant message carrying that round's requested
calls, followed by the requested calls dispatched through
`registry.call_tool` *in the order the LLM listed them*, each followed by
one appended tool-result message correlated by the call's id.  Derived:
the registry dispatches are exactly the listed calls in order; the
tool-result correlation ids are exactly the listed ids in order; exactly
`k` assistant messages are appended.  With one call per round this gives
exactly `k` registry calls, `k` assistant and `k` tool-result messages
before the text is returned (spec §8 Scenario B). -/
theorem c6_round_trace_ordering (jloads : String → Except String JVal) (llm : LLMOracle)
    (reg : MCPToolRegistry) (system_prompt : Option String) (prompt : String)
    (k N : Nat) (tcs : Nat → List TcSpec) (txt : String)
    (hs : ∀ i msgs tools, i < k →
      llm i msgs tools = [("tool_calls", .arr ((tcs i).map TcSpec.toJVal))])
    (hne : ∀ i, i < k → tcs i ≠ [])
    (hfin : ∀ msgs tools, llm k msgs tools = [("content", .str txt)])
    (hk : k ≤ N) :
    call_llm_with_tools jloads llm reg system_prompt prompt N =
      (.str txt,
       initialMessages system_prompt prompt ++ (List.range k).flatMap (fun i =>
         assistantMsg [("tool_calls", JVal.arr ((tcs i).map TcSpec.toJVal))]
             (.arr ((tcs i).map TcSpec.toJVal)) ::
           (tcs i).map (fun t => (reg.call_tool t.toCall).to_llm_tool_result)),
       (List.range k).flatMap (fun i =>
         LoopEvent.llmCall i true :: LoopEvent.appendAssistant ::
           (tcs i).flatMap (fun t =>
             [LoopEvent.toolDispatch t.toCall (reg.call_tool t.toCall),
              LoopEvent.appendToolResult (.str t.tcid)])) ++
         [LoopEvent.llmCall k (decide (k < N))]) ∧
    dispatchCallsOf (call_llm_with_tools jloads llm reg system_prompt prompt N).2.2 =
      (List.range k).flatMap (fun i => (tcs i).map TcSpec.toCall) ∧
    toolMsgIdsOf (call_llm_with_tools jloads llm reg system_prompt prompt N).2.2 =
      (List.range k).flatMap (fun i => (tcs i).map (fun t => JVal.str t.tcid)) ∧
    assistantAppends (call_llm_with_tools jloads llm reg system_prompt prompt N).2.2 = k := by
  have h := toolLoop_script jloads llm reg (.arr reg.get_tools_for_llm) k N tcs txt
    hs hne hfin k 0 (initialMessages system_prompt prompt) (by omega) hk
  simp only [Nat.sub_zero, Nat.zero_add] at h
  have hcall : call_llm_with_tools jloads llm reg system_prompt prompt N =
      (.str txt,
       initialMessages system_prompt prompt ++ (List.range k).flatMap (fun i =>
         assistantMsg [("tool_calls", JVal.arr ((tcs i).map TcSpec.toJVal))]
             (.arr ((tcs i).map TcSpec.toJVal)) ::
           (tcs i).map (fun t => (reg.call_tool t.toCall).to_llm_tool_result)),
       (List.range k).flatMap (fun i =>
         LoopEvent.llmCall i true :: LoopEvent.appendAssistant ::
           (tcs i).flatMap (fun t =>
             [LoopEvent.toolDispatch t.toCall (reg.call_tool t.toCall),
              LoopEvent.appendToolResult (.str t.tcid)])) ++
         [LoopEvent.llmCall k (decide (k < N))]) := by
    simp only [call_llm_with_tools, h]
  refine ⟨hcall, ?_, ?_, ?_⟩
  · rw [hcall]
    show dispatchCallsOf _ = _
    rw [dispatchCallsOf_append, dispatchCallsOf_flatMap]
    have hlast : dispatchCallsOf [LoopEvent.llmCall k (decide (k < N))] = [] := rfl
    rw [hlast, List.append_nil]
    refine List.flatMap_congr ?_
    intro i _
    show dispatchCallsOf (_ :: _ :: _) = _
    rw [show ∀ a b l, dispatchCallsOf (LoopEvent.llmCall a b :: LoopEvent.appendAssistant :: l) =
        dispatchCallsOf l from fun a b l => rfl]
    exact dispatchCallsOf_pairs reg (tcs i)
  · rw [hcall]
    show toolMsgIdsOf _ = _
    rw [toolMsgIdsOf_append, toolMsgIdsOf_flatMap]
    have hlast : toolMsgIdsOf [LoopEvent.llmCall k (decide (k < N))] = [] := rfl
    rw [hlast, List.append_nil]
    refine List.flatMap_congr ?_
    intro i _
    rw [show ∀ a b l, toolMsgIdsOf (LoopEvent.llmCall a b :: LoopEvent.appendAssistant :: l) =
        toolMsgIdsOf l from fun a b l => rfl]
    exact toolMsgIdsOf_pairs reg (tcs i)
  · rw [hcall]
    show assistantAppends _ = _
    rw [assistantAppends_append, assistantAppends_flatMap]
    have hlast : assistantAppends [LoopEvent.llmCall k (decide (k < N))] = 0 := rfl
    rw [hlast, Nat.add_zero]
    rw [map_sum_one _ _ ?_, List.length_range]
    intro i _
    rw [show ∀ a b l, assistantAppends (LoopEvent.llmCall a b :: LoopEvent.appendAssistant :: l) =
        1 + assistantAppends l from fun a b l => by simp [assistantAppends, List.countP_cons]; omega]
    rw [assistantAppends_pairs reg (tcs i)]

/-- Witness for C6: Scenario B — the scripted LLM `llmW` requests one
`echo` call for rounds 0, 1, 2 and then answers `"done"`, with round
budget 5: the run returns `"done"`, appends exactly 3 assistant
messages, and the tool-result correlation ids are `c0, c1, c2` in
order. -/
theorem c6_witness :
    (call_llm_with_tools jl0 llmW echoReg none "go" 5).1 = .str "done" ∧
    assistantAppends (call_llm_with_tools jl0 llmW echoReg none "go" 5).2.2 = 3 ∧
    toolMsgIdsOf (call_llm_with_tools jl0 llmW echoReg none "go" 5).2.2 =
      [.str "c0", .str "c1", .str "c2"] := by
  have h := c6_round_trace_ordering jl0 llmW echoReg none "go" 3 5 tcsW "done"
    (fun i _ _ hi => by simp [llmW, hi])
    (fun i _ => by simp [tcsW])
    (fun _ _ => by simp [llmW])
    (by omega)
  exact ⟨by rw [h.1], h.2.2.2, by rw [h.2.2.1]; rfl⟩
